import Mathlib

/-!
# BindObjectAsyncHandler (CefSharp.BrowserSubprocess.Core)

A shallow embedding of `BindObjectAsyncHandler.h`: the V8 values the handler
inspects, the CEF list/dictionary values it builds, the handler state
(callback registry, object cache, browser wrapper) and the three member
functions `Execute`, `NotifyObjectBound` and `GetV8BoolValue`.

Calls into collaborators whose body is outside the handler (binding objects
into the global scope, settling the promise, sending a process message) are
recorded, in program order, in a list of `Effect`s.
-/

namespace CefSharp

/-! ## V8 values -/

/-- The script values the handler can receive (`CefV8Value`).  Every value for
which `IsObject()` holds (plain objects, arrays, functions, promises) is an
`object` together with the properties reachable through `HasValue`/`GetValue`. -/
inductive V8Value where
  | undefined
  | null
  | bool (b : Bool)
  | int (n : Int)
  | string (s : String)
  | object (props : List (String × V8Value))

namespace V8Value

/-- The test `CefV8Value::IsObject`. -/
def IsObject : V8Value → Bool
  | object _ => true
  | _ => false

/-- The test `CefV8Value::IsString`. -/
def IsString : V8Value → Bool
  | string _ => true
  | _ => false

/-- The test `CefV8Value::IsBool`. -/
def IsBool : V8Value → Bool
  | bool _ => true
  | _ => false

/-- The getter `CefV8Value::GetBoolValue` (false when the value is not a boolean). -/
def GetBoolValue : V8Value → Bool
  | bool b => b
  | _ => false

/-- The getter `CefV8Value::GetStringValue` (empty when the value is not a string). -/
def GetStringValue : V8Value → String
  | string s => s
  | _ => ""

/-- The test `CefV8Value::HasValue(key)`: false on anything that is not an object. -/
def HasValue : V8Value → String → Bool
  | object props, key => props.any (fun p => p.1 == key)
  | _, _ => false

/-- The getter `CefV8Value::GetValue(key)`: `undefined` when there is no such property. -/
def GetValue : V8Value → String → V8Value
  | object props, key => (props.lookup key).getD undefined
  | _, _ => undefined

/-- The setter `CefV8Value::SetValue(key, value, attribute)` on an object. -/
def SetValue : V8Value → String → V8Value → V8Value
  | object props, key, v => object (props.filter (fun p => p.1 != key) ++ [(key, v)])
  | other, _, _ => other

end V8Value

/-! ## CEF list and dictionary values -/

/-- The values stored in process messages (`CefValue`).  `int64` is the slot
written by the `SetInt64` helper of `Primitives.h`. -/
inductive CefValue where
  | null
  | bool (b : Bool)
  | int64 (n : Int)
  | string (s : String)
  | dictionary (entries : List (String × CefValue))
  | list (items : List CefValue)

namespace CefListValue

/-- The setters `CefListValue::Set*(index, value)`: an existing slot is
replaced; an index past the end first expands the list with null slots up to
that index. -/
def Set (l : List CefValue) (index : Nat) (v : CefValue) : List CefValue :=
  if index < l.length then l.set index v
  else l ++ List.replicate (index - l.length) CefValue.null ++ [v]

/-- The setter `CefListValue::SetString`. -/
def SetString (l : List CefValue) (index : Nat) (s : String) : List CefValue :=
  Set l index (CefValue.string s)

/-- The setter `CefListValue::SetDictionary`. -/
def SetDictionary (l : List CefValue) (index : Nat) (d : List (String × CefValue)) :
    List CefValue :=
  Set l index (CefValue.dictionary d)

/-- The setter `CefListValue::SetList`. -/
def SetList (l : List CefValue) (index : Nat) (items : List CefValue) : List CefValue :=
  Set l index (CefValue.list items)

/-- The helper `SetInt64(list, index, value)` of `Primitives.h`. -/
def SetInt64 (l : List CefValue) (index : Nat) (n : Int) : List CefValue :=
  Set l index (CefValue.int64 n)

end CefListValue

namespace CefDictionaryValue

/-- The setters `CefDictionaryValue::Set*(key, value)`: one entry per key. -/
def Set (d : List (String × CefValue)) (key : String) (v : CefValue) :
    List (String × CefValue) :=
  d.filter (fun p => p.1 != key) ++ [(key, v)]

/-- The setter `CefDictionaryValue::SetString`. -/
def SetString (d : List (String × CefValue)) (key : String) (s : String) :
    List (String × CefValue) :=
  Set d key (CefValue.string s)

/-- The setter `CefDictionaryValue::SetBool`. -/
def SetBool (d : List (String × CefValue)) (key : String) (b : Bool) :
    List (String × CefValue) :=
  Set d key (CefValue.bool b)

/-- The getter `CefDictionaryValue::GetString` (empty when absent or not a string). -/
def GetString (d : List (String × CefValue)) (key : String) : String :=
  match d.lookup key with
  | some (CefValue.string s) => s
  | _ => ""

/-- The getter `CefDictionaryValue::GetBool` (false when absent or not a boolean). -/
def GetBool (d : List (String × CefValue)) (key : String) : Bool :=
  match d.lookup key with
  | some (CefValue.bool b) => b
  | _ => false

end CefDictionaryValue

/-- The two message-type identifiers of `Messages.h` used by the handler. -/
inductive MessageName where
  | kJavascriptRootObjectRequest
  | kJavascriptObjectsBoundInJavascript
  deriving DecidableEq, Repr

/-- A process message (`CefProcessMessage`): its name and its argument list. -/
structure CefProcessMessage where
  name : MessageName
  argumentList : List CefValue

/-! ## Handler state and collaborators -/

/-- An entry of the object cache (`JavascriptObject`). -/
structure JavascriptObject where
  Id : Int
  Name : String
  deriving DecidableEq, Repr

/-- The completion bridge built by `gcnew JavascriptAsyncMethodCallback(context, resolve, reject)`. -/
structure JavascriptAsyncMethodCallback where
  resolve : V8Value
  reject : V8Value

/-- Modelled from the spec: `RegisterBoundObjectRegistry` (its header is not
among the sources) stores pending completion handles keyed by a generated,
monotonically assigned correlation id. -/
structure RegisterBoundObjectRegistry where
  lastCallback : Int
  methodCallbacks : List (Int × JavascriptAsyncMethodCallback)

/-- Modelled from the spec: `RegisterBoundObjectRegistry::SaveMethodCallback`
(not among the sources) assigns the next correlation id, stores the callback
under it and returns the id. -/
def RegisterBoundObjectRegistry.SaveMethodCallback (r : RegisterBoundObjectRegistry)
    (callback : JavascriptAsyncMethodCallback) : Int × RegisterBoundObjectRegistry :=
  (r.lastCallback + 1,
    { lastCallback := r.lastCallback + 1,
      methodCallbacks := r.methodCallbacks ++ [(r.lastCallback + 1, callback)] })

/-- A frame as seen by the handler: `IsValid()` and `GetIdentifier()`. -/
structure CefFrame where
  IsValid : Bool
  Identifier : Int
  deriving DecidableEq, Repr

/-- The per-frame root object wrapper, created with the browser identifier. -/
structure JavascriptRootObjectWrapper where
  browserId : Int
  deriving DecidableEq, Repr

/-- The browser wrapper: its frame-identifier to root-object map. -/
structure CefBrowserWrapper where
  JavascriptRootObjectWrappers : List (Int × JavascriptRootObjectWrapper)
  deriving DecidableEq, Repr

/-- What `CefV8Context::GetCurrentContext()` hands to `Execute`: whether
`Enter()` succeeds, the global object, the outcome of evaluating
`kPromiseCreatorScript` (the promise data, or the message of the evaluation
exception), the frame (`none` for a null pointer) and the browser identifier. -/
structure CefV8Context where
  Enter : Bool
  Global : V8Value
  EvalPromiseCreator : Except String V8Value
  Frame : Option CefFrame
  BrowserIdentifier : Int

/-- The fields of `BindObjectAsyncHandler`. -/
structure BindObjectAsyncHandler where
  _callbackRegistry : RegisterBoundObjectRegistry
  _javascriptObjects : List (String × JavascriptObject)
  _browserWrapper : Option CefBrowserWrapper

/-- The observable calls `Execute` makes on its collaborators, in program order.
* `Bind`: `rootObject->Bind(cachedObjects, context->GetGlobal())` on the root
  object of the given frame identifier (the merge into the frame scope);
* `Success`: `callback->Success(response)` (resolves the returned promise);
* `Fail`: `callback->Fail(message)` (rejects the returned promise);
* `Resolve`: `resolve->ExecuteFunctionWithContext(context, nullptr, [response])`;
* `SendProcessMessage`: `frame->SendProcessMessage(PID_BROWSER, message)`. -/
inductive Effect where
  | Bind (frameIdentifier : Int) (objects : List JavascriptObject)
  | Success (response : V8Value)
  | Fail (message : String)
  | Resolve (response : V8Value)
  | SendProcessMessage (message : CefProcessMessage)

/-! ## GetV8BoolValue -/

/-- The member function `BindObjectAsyncHandler::GetV8BoolValue`. -/
def GetV8BoolValue (val : V8Value) (key camelCaseKey : String) : Bool :=
  let camelCase : Bool :=
    if val.HasValue camelCaseKey then
      let obj := val.GetValue camelCaseKey
      if obj.IsBool then obj.GetBoolValue else false
    else false
  if val.HasValue key then
    let obj := val.GetValue key
    if obj.IsBool then obj.GetBoolValue else camelCase
  else camelCase

/-- The flag stored under `key`, when the key is present and holds a boolean
(the reading of one key in the words of the specification). -/
def flagUnder (val : V8Value) (key : String) : Option Bool :=
  if val.HasValue key then
    match val.GetValue key with
    | V8Value.bool b => some b
    | _ => none
  else none

/-- The specification of `GetV8BoolValue`: the exact-case key wins, then the
camelCase key, then the default false. -/
def GetV8BoolValueSpec (val : V8Value) (key camelCaseKey : String) : Bool :=
  match flagUnder val key with
  | some b => b
  | none =>
    match flagUnder val camelCaseKey with
    | some b => b
    | none => false

/-! ## NotifyObjectBound -/

/-- The dictionary built for one status tuple in `NotifyObjectBound`. -/
def boundObjectDict (obj : String × Bool × Bool) : List (String × CefValue) :=
  let name := obj.1
  let alreadyBound := obj.2.1
  let isCached := obj.2.2
  let dict := CefDictionaryValue.SetString [] "Name" name
  let dict := CefDictionaryValue.SetBool dict "IsCached" isCached
  CefDictionaryValue.SetBool dict "AlreadyBound" alreadyBound

/-- The `for each` loop of `NotifyObjectBound`, with its running `index`. -/
def NotifyObjectBoundLoop : List (String × Bool × Bool) → Nat → List CefValue → List CefValue
  | [], _, boundObjects => boundObjects
  | obj :: rest, index, boundObjects =>
    NotifyObjectBoundLoop rest (index + 1)
      (CefListValue.SetDictionary boundObjects index (boundObjectDict obj))

/-- The message built by `NotifyObjectBound`. -/
def NotifyObjectBoundMessage (objectNamesWithBoundStatus : List (String × Bool × Bool)) :
    CefProcessMessage :=
  { name := MessageName.kJavascriptObjectsBoundInJavascript,
    argumentList :=
      CefListValue.SetList [] 0 (NotifyObjectBoundLoop objectNamesWithBoundStatus 0 []) }

/-- The member function `BindObjectAsyncHandler::NotifyObjectBound`: the
effects it has on the frame. -/
def NotifyObjectBound (objectNamesWithBoundStatus : List (String × Bool × Bool)) :
    List Effect :=
  [Effect.SendProcessMessage (NotifyObjectBoundMessage objectNamesWithBoundStatus)]

/-! ## Execute -/

/-- The local variables of `Execute` that the argument scan (lines 68-130) sets. -/
structure Classification where
  boundObjectRequired : Bool
  notifyIfAlreadyBound : Bool
  ignoreCache : Bool
  cachedObjects : List JavascriptObject
  objectNamesWithBoundStatus : List (String × Bool × Bool)
  objectCount : Int
  params : List CefValue

/-- The body of the argument loop of `Execute` for `arguments[i]`. -/
def classifyArgument (global : V8Value) (javascriptObjects : List (String × JavascriptObject))
    (i : Nat) (arg : V8Value) (st : Classification) : Classification :=
  if arg.IsString then
    let objectName := arg.GetStringValue
    let alreadyBound := global.HasValue objectName
    if alreadyBound then
      let cached := (javascriptObjects.lookup objectName).isSome
      { st with
        objectNamesWithBoundStatus :=
          st.objectNamesWithBoundStatus ++ [(objectName, alreadyBound, cached)] }
    else
      match javascriptObjects.lookup objectName with
      | some obj =>
        { st with
          boundObjectRequired := true
          params := CefListValue.SetString st.params i objectName
          cachedObjects := st.cachedObjects ++ [obj]
          objectNamesWithBoundStatus :=
            st.objectNamesWithBoundStatus ++ [(objectName, alreadyBound, true)] }
      | none =>
        { st with
          boundObjectRequired := true
          params := CefListValue.SetString st.params i objectName
          objectNamesWithBoundStatus :=
            st.objectNamesWithBoundStatus ++ [(objectName, alreadyBound, false)] }
  else st

/-- The argument loop of `Execute`, from index `i` on. -/
def classifyLoop (global : V8Value) (javascriptObjects : List (String × JavascriptObject)) :
    Nat → List V8Value → Classification → Classification
  | _, [], st => st
  | i, arg :: rest, st =>
    classifyLoop global javascriptObjects (i + 1) rest
      (classifyArgument global javascriptObjects i arg st)

/-- The values of the local variables at their declaration. -/
def Classification.initial : Classification :=
  { boundObjectRequired := false
    notifyIfAlreadyBound := false
    ignoreCache := false
    cachedObjects := []
    objectNamesWithBoundStatus := []
    objectCount := 0
    params := [] }

/-- The argument scan of `Execute` (lines 68-130): options parsing, the
requested count and the classification loop. -/
def classify (global : V8Value) (javascriptObjects : List (String × JavascriptObject))
    (arguments : List V8Value) : Classification :=
  match arguments with
  | [] => { Classification.initial with boundObjectRequired := true }
  | arg0 :: _ =>
    let st : Classification :=
      if arg0.IsObject then
        { Classification.initial with
          notifyIfAlreadyBound := GetV8BoolValue arg0 "NotifyIfAlreadyBound" "notifyIfAlreadyBound"
          ignoreCache := GetV8BoolValue arg0 "IgnoreCache" "ignoreCache"
          objectCount := (arguments.length : Int) - 1 }
      else
        { Classification.initial with objectCount := (arguments.length : Int) }
    classifyLoop global javascriptObjects 0 arguments st

/-- The response object of the cached branch. -/
def cachedResponse (count : Int) : V8Value :=
  ((((V8Value.object []).SetValue "Count" (V8Value.int count)).SetValue
    "Success" (V8Value.bool true)).SetValue "Message" (V8Value.string "OK"))

/-- The response object of the already-bound branch. -/
def alreadyBoundResponse : V8Value :=
  ((((V8Value.object []).SetValue "Success" (V8Value.bool false)).SetValue
    "Count" (V8Value.int 0)).SetValue "Message" (V8Value.string "Object(s) already bound"))

/-- The request message of the request branch. -/
def requestMessage (callbackId : Int) (params : List CefValue) : CefProcessMessage :=
  { name := MessageName.kJavascriptRootObjectRequest,
    argumentList := CefListValue.SetList (CefListValue.SetInt64 [] 0 callbackId) 1 params }

/-- The lookup-or-create of the frame's root object in the browser wrapper. -/
def getOrAddRootObject (w : CefBrowserWrapper) (frameIdentifier browserIdentifier : Int) :
    CefBrowserWrapper :=
  match w.JavascriptRootObjectWrappers.lookup frameIdentifier with
  | some _ => w
  | none =>
    { JavascriptRootObjectWrappers :=
        w.JavascriptRootObjectWrappers ++ [(frameIdentifier, { browserId := browserIdentifier })] }

/-- The outcome of one call of `Execute`: the returned boolean, the two output
parameters, the handler state after the call and the effects of the call. -/
structure ExecuteResult where
  returned : Bool
  retval : Option V8Value
  exception : Option String
  handler : BindObjectAsyncHandler
  effects : List Effect

/-- The frame test `frame.get() && frame->IsValid()`. -/
def validFrame (frame : Option CefFrame) : Option CefFrame :=
  match frame with
  | some f => if f.IsValid then some f else none
  | none => none

/-- The member function `BindObjectAsyncHandler::Execute`. -/
def Execute (h : BindObjectAsyncHandler) (currentContext : Option CefV8Context)
    (arguments : List V8Value) : ExecuteResult :=
  match currentContext with
  | none =>
    { returned := true, retval := none,
      exception := some "BindObjectAsyncHandler::Execute - Unable to Get or Enter Context",
      handler := h, effects := [] }
  | some context =>
    if context.Enter then
      match context.EvalPromiseCreator with
      | Except.error message =>
        { returned := true, retval := none, exception := some message, handler := h,
          effects := [] }
      | Except.ok promiseData =>
        let retval := promiseData.GetValue "p"
        let resolve := promiseData.GetValue "res"
        let reject := promiseData.GetValue "rej"
        let callback : JavascriptAsyncMethodCallback := { resolve := resolve, reject := reject }
        let c := classify context.Global h._javascriptObjects arguments
        if c.boundObjectRequired || c.ignoreCache then
          if ((c.cachedObjects.length : Int) == c.objectCount) && (c.ignoreCache == false) then
            match validFrame context.Frame with
            | some frame =>
              match h._browserWrapper with
              | none =>
                { returned := true, retval := some retval, exception := none, handler := h,
                  effects :=
                    [Effect.Fail "Browser wrapper is null and unable to bind objects"] }
              | some browserWrapper =>
                { returned := true, retval := some retval, exception := none,
                  handler :=
                    { h with
                      _browserWrapper :=
                        some (getOrAddRootObject browserWrapper frame.Identifier
                          context.BrowserIdentifier) },
                  effects :=
                    [Effect.Bind frame.Identifier c.cachedObjects,
                     Effect.Success (cachedResponse (c.cachedObjects.length : Int))]
                    ++ NotifyObjectBound c.objectNamesWithBoundStatus }
            | none =>
              { returned := true, retval := some retval, exception := none, handler := h,
                effects := [] }
          else
            match validFrame context.Frame with
            | some _ =>
              let saved := h._callbackRegistry.SaveMethodCallback callback
              { returned := true, retval := some retval, exception := none,
                handler := { h with _callbackRegistry := saved.2 },
                effects := [Effect.SendProcessMessage (requestMessage saved.1 c.params)] }
            | none =>
              { returned := true, retval := some retval, exception := none, handler := h,
                effects := [] }
        else
          match validFrame context.Frame with
          | some _ =>
            { returned := true, retval := some retval, exception := none, handler := h,
              effects :=
                [Effect.Resolve alreadyBoundResponse]
                ++ (if c.notifyIfAlreadyBound then
                      NotifyObjectBound c.objectNamesWithBoundStatus
                    else []) }
          | none =>
            { returned := true, retval := some retval, exception := none, handler := h,
              effects := [] }
    else
      { returned := true, retval := none,
        exception := some "BindObjectAsyncHandler::Execute - Unable to Get or Enter Context",
        handler := h, effects := [] }

/-! ## Projections of the argument loop (used to state what the loop computes) -/

/-- Whether the loop body marks `arg` as a name to fetch: a string argument
absent from the global scope. -/
def needsFetch (global : V8Value) (arg : V8Value) : Bool :=
  arg.IsString && !global.HasValue arg.GetStringValue

/-- The status tuple the loop body adds for `arg` (none for a non-string argument). -/
def statusOf (global : V8Value) (javascriptObjects : List (String × JavascriptObject))
    (arg : V8Value) : Option (String × Bool × Bool) :=
  match arg with
  | V8Value.string s => some (s, global.HasValue s, (javascriptObjects.lookup s).isSome)
  | _ => none

/-- The cached object the loop body adds for `arg`, if any. -/
def cachedObjectOf (global : V8Value) (javascriptObjects : List (String × JavascriptObject))
    (arg : V8Value) : Option JavascriptObject :=
  match arg with
  | V8Value.string s => if global.HasValue s then none else javascriptObjects.lookup s
  | _ => none

/-- The writes of the argument loop to `params`, from index `i` on. -/
def paramsLoop (global : V8Value) : Nat → List V8Value → List CefValue → List CefValue
  | _, [], params => params
  | i, arg :: rest, params =>
    paramsLoop global (i + 1) rest
      (if needsFetch global arg then CefListValue.SetString params i arg.GetStringValue
       else params)

/-- The flag read from an optional leading options object (false without one). -/
def optionFlag (opts : Option V8Value) (key camelCaseKey : String) : Bool :=
  match opts with
  | some o => GetV8BoolValue o key camelCaseKey
  | none => false

/-! ## Concrete inputs -/

/-- A promise data object as `kPromiseCreatorScript` returns it. -/
def examplePromiseData : V8Value :=
  V8Value.object
    [("p", V8Value.object [("kind", V8Value.string "promise")]),
     ("res", V8Value.object [("kind", V8Value.string "resolve")]),
     ("rej", V8Value.object [("kind", V8Value.string "reject")])]

/-- A valid frame. -/
def exampleFrame : CefFrame := { IsValid := true, Identifier := 7 }

/-- A context that can be entered, with a valid frame, whose global scope holds
a value under each of `globalNames`. -/
def exampleContext (globalNames : List String) : CefV8Context :=
  { Enter := true
    Global := V8Value.object (globalNames.map (fun n => (n, V8Value.object [])))
    EvalPromiseCreator := Except.ok examplePromiseData
    Frame := some exampleFrame
    BrowserIdentifier := 1 }

/-- A handler with an empty registry, a browser wrapper, and an object cache
holding an object under each of `cachedNames`. -/
def exampleHandler (cachedNames : List String) : BindObjectAsyncHandler :=
  { _callbackRegistry := { lastCallback := 0, methodCallbacks := [] }
    _javascriptObjects := cachedNames.map (fun n => (n, { Id := 1, Name := n }))
    _browserWrapper := some { JavascriptRootObjectWrappers := [] } }

/-! ## Predicates on effects and further concrete inputs -/

/-- The leading options object of an argument list, if there is one. -/
def leadingOptions (arguments : List V8Value) : Option V8Value :=
  match arguments with
  | arg0 :: _ => if arg0.IsObject then some arg0 else none
  | [] => none

/-- Whether an effect is a bound-notification message. -/
def Effect.isBoundNotification : Effect → Bool
  | Effect.SendProcessMessage m =>
    decide (m.name = MessageName.kJavascriptObjectsBoundInJavascript)
  | _ => false

/-- Whether an effect is a request-objects message. -/
def Effect.isRequest : Effect → Bool
  | Effect.SendProcessMessage m => decide (m.name = MessageName.kJavascriptRootObjectRequest)
  | _ => false

/-- Whether an effect settles the promise (resolves or rejects it). -/
def Effect.isSettle : Effect → Bool
  | Effect.Success _ => true
  | Effect.Fail _ => true
  | Effect.Resolve _ => true
  | _ => false

/-- The string entries of a CEF list, in order (null and other slots dropped). -/
def stringEntries (l : List CefValue) : List String :=
  l.filterMap (fun v =>
    match v with
    | CefValue.string s => some s
    | _ => none)

/-- Effect pattern (1): merge, resolve with Success true, one bound-notification. -/
def ServedFromCachePattern (h : BindObjectAsyncHandler) (r : ExecuteResult) : Prop :=
  ∃ frameIdentifier objects count statuses,
    r.effects =
      [Effect.Bind frameIdentifier objects,
       Effect.Success
         (V8Value.object
           [("Count", V8Value.int count), ("Success", V8Value.bool true),
            ("Message", V8Value.string "OK")]),
       Effect.SendProcessMessage (NotifyObjectBoundMessage statuses)]
    ∧ r.handler._callbackRegistry = h._callbackRegistry

/-- Effect pattern (2): Fail with the null-wrapper message and nothing else. -/
def NullWrapperPattern (h : BindObjectAsyncHandler) (r : ExecuteResult) : Prop :=
  r.effects = [Effect.Fail "Browser wrapper is null and unable to bind objects"]
    ∧ r.handler = h

/-- Effect pattern (3): one registry insertion and one request-objects message and
nothing else. -/
def RequestSentPattern (h : BindObjectAsyncHandler) (r : ExecuteResult) : Prop :=
  ∃ callbackId callback params,
    r.effects = [Effect.SendProcessMessage (requestMessage callbackId params)]
    ∧ r.handler._callbackRegistry.methodCallbacks
        = h._callbackRegistry.methodCallbacks ++ [(callbackId, callback)]

/-- Effect pattern (4): resolve with Success false and at most one bound-notification. -/
def AlreadyBoundPattern (h : BindObjectAsyncHandler) (r : ExecuteResult) : Prop :=
  (r.effects =
      [Effect.Resolve
        (V8Value.object
          [("Success", V8Value.bool false), ("Count", V8Value.int 0),
           ("Message", V8Value.string "Object(s) already bound")])]
    ∨ ∃ statuses,
      r.effects =
        [Effect.Resolve
          (V8Value.object
            [("Success", V8Value.bool false), ("Count", V8Value.int 0),
             ("Message", V8Value.string "Object(s) already bound")]),
         Effect.SendProcessMessage (NotifyObjectBoundMessage statuses)])
    ∧ r.handler = h

/-- A context as `exampleContext`, with the given frame pointer. -/
def exampleContextWithFrame (frame : Option CefFrame) (globalNames : List String) :
    CefV8Context :=
  { exampleContext globalNames with Frame := frame }

/-- A context that can be entered but in which evaluating the promise creator fails. -/
def exampleContextEvalFails : CefV8Context :=
  { exampleContext [] with
    EvalPromiseCreator := Except.error "Uncaught RangeError: Maximum call stack size exceeded" }

/-- A context as `exampleContextEvalFails`, where the evaluation exception carries an
empty message. -/
def exampleContextEvalFailsEmptyMessage : CefV8Context :=
  { exampleContext [] with EvalPromiseCreator := Except.error "" }

/-- A handler as `exampleHandler`, with a null browser wrapper. -/
def exampleHandlerNoWrapper (cachedNames : List String) : BindObjectAsyncHandler :=
  { exampleHandler cachedNames with _browserWrapper := none }

/-! ## The argument loop, field by field -/

theorem classifyArgument_eq (g : V8Value) (cache : List (String × JavascriptObject))
    (i : Nat) (arg : V8Value) (st : Classification) :
    classifyArgument g cache i arg st =
      { st with
        boundObjectRequired := st.boundObjectRequired || needsFetch g arg
        params :=
          if needsFetch g arg then CefListValue.SetString st.params i arg.GetStringValue
          else st.params
        cachedObjects := st.cachedObjects ++ (cachedObjectOf g cache arg).toList
        objectNamesWithBoundStatus :=
          st.objectNamesWithBoundStatus ++ (statusOf g cache arg).toList } := by
  cases arg <;> simp [classifyArgument, needsFetch, statusOf, cachedObjectOf, V8Value.IsString,
    V8Value.GetStringValue]
  rename_i s
  cases hg : g.HasValue s <;> simp
  cases hc : cache.lookup s <;> simp

theorem classifyLoop_eq (g : V8Value) (cache : List (String × JavascriptObject))
    (args : List V8Value) (i : Nat) (st : Classification) :
    classifyLoop g cache i args st =
      { st with
        boundObjectRequired := st.boundObjectRequired || args.any (needsFetch g)
        params := paramsLoop g i args st.params
        cachedObjects := st.cachedObjects ++ args.filterMap (cachedObjectOf g cache)
        objectNamesWithBoundStatus :=
          st.objectNamesWithBoundStatus ++ args.filterMap (statusOf g cache) } := by
  induction args generalizing i st with
  | nil => simp [classifyLoop, paramsLoop]
  | cons arg rest ih =>
    rw [classifyLoop, ih, classifyArgument_eq]
    simp only [paramsLoop, List.any_cons, List.filterMap_cons, Bool.or_assoc]
    cases hc : cachedObjectOf g cache arg <;> cases hs : statusOf g cache arg <;> simp


theorem needsFetch_object (g : V8Value) (props : List (String × V8Value)) :
    needsFetch g (V8Value.object props) = false := by
  simp [needsFetch, V8Value.IsString]

theorem paramsLoop_noFetch (g : V8Value) (args : List V8Value)
    (hargs : ∀ a ∈ args, needsFetch g a = false) (i : Nat) (p : List CefValue) :
    paramsLoop g i args p = p := by
  induction args generalizing i p with
  | nil => rfl
  | cons a rest ih =>
    have ha : needsFetch g a = false := hargs a (List.mem_cons_self a rest)
    have hrest : ∀ b ∈ rest, needsFetch g b = false :=
      fun b hb => hargs b (List.mem_cons_of_mem a hb)
    simp [paramsLoop, ha, ih hrest]

theorem paramsLoop_dense (g : V8Value) (names : List String)
    (hScope : ∀ n ∈ names, g.HasValue n = false) (i : Nat) (p : List CefValue)
    (hp : p.length = i) :
    paramsLoop g i (names.map V8Value.string) p = p ++ names.map CefValue.string := by
  induction names generalizing i p with
  | nil => simp [paramsLoop]
  | cons n rest ih =>
    have hn : g.HasValue n = false := hScope n (List.mem_cons_self n rest)
    have hrest : ∀ m ∈ rest, g.HasValue m = false :=
      fun m hm => hScope m (List.mem_cons_of_mem n hm)
    have hset : CefListValue.SetString p i n = p ++ [CefValue.string n] := by
      simp [CefListValue.SetString, CefListValue.Set, hp]
    simp only [List.map_cons, paramsLoop, needsFetch, V8Value.IsString, V8Value.GetStringValue,
      hn, Bool.not_false, Bool.and_self, if_true, hset]
    rw [ih hrest (i + 1) (p ++ [CefValue.string n]) (by simp [hp])]
    simp

theorem boundObjectDict_eq (obj : String × Bool × Bool) :
    boundObjectDict obj =
      [("Name", CefValue.string obj.1), ("IsCached", CefValue.bool obj.2.2),
       ("AlreadyBound", CefValue.bool obj.2.1)] := by
  simp [boundObjectDict, CefDictionaryValue.SetString, CefDictionaryValue.SetBool,
    CefDictionaryValue.Set]

theorem NotifyObjectBoundLoop_dense (l : List (String × Bool × Bool)) (index : Nat)
    (acc : List CefValue) (hacc : acc.length = index) :
    NotifyObjectBoundLoop l index acc
      = acc ++ l.map (fun obj => CefValue.dictionary (boundObjectDict obj)) := by
  induction l generalizing index acc with
  | nil => simp [NotifyObjectBoundLoop]
  | cons obj rest ih =>
    have hset : CefListValue.SetDictionary acc index (boundObjectDict obj)
        = acc ++ [CefValue.dictionary (boundObjectDict obj)] := by
      simp [CefListValue.SetDictionary, CefListValue.Set, hacc]
    rw [NotifyObjectBoundLoop, hset, ih (index + 1) _ (by simp [hacc])]
    simp


theorem NotifyObjectBound_eq (objectNamesWithBoundStatus : List (String × Bool × Bool)) :
    NotifyObjectBound objectNamesWithBoundStatus =
      [Effect.SendProcessMessage
        { name := MessageName.kJavascriptObjectsBoundInJavascript,
          argumentList :=
            [CefValue.list
              (objectNamesWithBoundStatus.map (fun obj =>
                CefValue.dictionary
                  [("Name", CefValue.string obj.1), ("IsCached", CefValue.bool obj.2.2),
                   ("AlreadyBound", CefValue.bool obj.2.1)]))] }] := by
  simp [NotifyObjectBound, NotifyObjectBoundMessage, CefListValue.SetList, CefListValue.Set,
    NotifyObjectBoundLoop_dense, boundObjectDict_eq]

theorem classify_names (g : V8Value) (cache : List (String × JavascriptObject))
    (n : String) (rest : List String) :
    classify g cache ((n :: rest).map V8Value.string) =
      { boundObjectRequired := ((n :: rest).map V8Value.string).any (needsFetch g)
        notifyIfAlreadyBound := false
        ignoreCache := false
        cachedObjects := ((n :: rest).map V8Value.string).filterMap (cachedObjectOf g cache)
        objectNamesWithBoundStatus :=
          ((n :: rest).map V8Value.string).filterMap (statusOf g cache)
        objectCount := ((n :: rest).length : Int)
        params := paramsLoop g 0 ((n :: rest).map V8Value.string) [] } := by
  simp [classify, classifyLoop_eq, Classification.initial, V8Value.IsObject]

theorem classify_options (g : V8Value) (cache : List (String × JavascriptObject))
    (o : V8Value) (ho : o.IsObject = true) (rest : List V8Value) :
    classify g cache (o :: rest) =
      { boundObjectRequired := rest.any (needsFetch g)
        notifyIfAlreadyBound := GetV8BoolValue o "NotifyIfAlreadyBound" "notifyIfAlreadyBound"
        ignoreCache := GetV8BoolValue o "IgnoreCache" "ignoreCache"
        cachedObjects := rest.filterMap (cachedObjectOf g cache)
        objectNamesWithBoundStatus := rest.filterMap (statusOf g cache)
        objectCount := (rest.length : Int)
        params := paramsLoop g 1 rest [] } := by
  cases o <;> simp [V8Value.IsObject] at ho
  simp [classify, classifyLoop_eq, Classification.initial, V8Value.IsObject, needsFetch,
    V8Value.IsString, cachedObjectOf, statusOf, paramsLoop]


theorem any_needsFetch_absent (g : V8Value) (names : List String)
    (hScope : ∀ n ∈ names, g.HasValue n = false) :
    (names.map V8Value.string).any (needsFetch g) = !names.isEmpty := by
  cases names with
  | nil => rfl
  | cons n rest =>
    have hn : g.HasValue n = false := hScope n (List.mem_cons_self n rest)
    simp [needsFetch, V8Value.IsString, V8Value.GetStringValue, hn]

theorem needsFetch_bound (g : V8Value) (names : List String)
    (hScope : ∀ n ∈ names, g.HasValue n = true) :
    ∀ a ∈ names.map V8Value.string, needsFetch g a = false := by
  intro a ha
  obtain ⟨n, hn, rfl⟩ := List.mem_map.mp ha
  simp [needsFetch, V8Value.IsString, V8Value.GetStringValue, hScope n hn]

theorem any_needsFetch_bound (g : V8Value) (names : List String)
    (hScope : ∀ n ∈ names, g.HasValue n = true) :
    (names.map V8Value.string).any (needsFetch g) = false := by
  rw [List.any_eq_false]
  intro a ha
  simp [needsFetch_bound g names hScope a ha]

theorem statusOf_names (g : V8Value) (cache : List (String × JavascriptObject))
    (names : List String) :
    (names.map V8Value.string).filterMap (statusOf g cache)
      = names.map (fun n => (n, g.HasValue n, (cache.lookup n).isSome)) := by
  induction names with
  | nil => rfl
  | cons n rest ih => simp [statusOf, List.filterMap_cons, ih]

theorem cachedObjectOf_absent (g : V8Value) (cache : List (String × JavascriptObject))
    (names : List String) (hScope : ∀ n ∈ names, g.HasValue n = false) :
    (names.map V8Value.string).filterMap (cachedObjectOf g cache)
      = names.filterMap (fun n => cache.lookup n) := by
  induction names with
  | nil => rfl
  | cons n rest ih =>
    have hn : g.HasValue n = false := hScope n (List.mem_cons_self n rest)
    have hrest : ∀ m ∈ rest, g.HasValue m = false :=
      fun m hm => hScope m (List.mem_cons_of_mem n hm)
    simp only [List.map_cons, List.filterMap_cons, cachedObjectOf, hn, ih hrest]
    simp

theorem cachedObjectOf_bound (g : V8Value) (cache : List (String × JavascriptObject))
    (names : List String) (hScope : ∀ n ∈ names, g.HasValue n = true) :
    (names.map V8Value.string).filterMap (cachedObjectOf g cache) = [] := by
  induction names with
  | nil => rfl
  | cons n rest ih =>
    have hn : g.HasValue n = true := hScope n (List.mem_cons_self n rest)
    have hrest : ∀ m ∈ rest, g.HasValue m = true :=
      fun m hm => hScope m (List.mem_cons_of_mem n hm)
    simp [List.filterMap_cons, cachedObjectOf, hn, ih hrest]

theorem filterMap_lookup_none (cache : List (String × JavascriptObject)) (names : List String)
    (hCache : ∀ n ∈ names, cache.lookup n = none) :
    names.filterMap (fun n => cache.lookup n) = [] := by
  induction names with
  | nil => rfl
  | cons n rest ih =>
    have hn := hCache n (List.mem_cons_self n rest)
    have hrest : ∀ m ∈ rest, cache.lookup m = none :=
      fun m hm => hCache m (List.mem_cons_of_mem n hm)
    simp [List.filterMap_cons, hn, ih hrest]

theorem filterMap_lookup_some (cache : List (String × JavascriptObject)) (names : List String)
    (hCache : ∀ n ∈ names, (cache.lookup n).isSome = true) :
    (names.filterMap (fun n => cache.lookup n)).map some = names.map (fun n => cache.lookup n) := by
  induction names with
  | nil => rfl
  | cons n rest ih =>
    have hn := hCache n (List.mem_cons_self n rest)
    have hrest : ∀ m ∈ rest, (cache.lookup m).isSome = true :=
      fun m hm => hCache m (List.mem_cons_of_mem n hm)
    obtain ⟨obj, hobj⟩ := Option.isSome_iff_exists.mp hn
    simp [List.filterMap_cons, hobj, ih hrest]

theorem filterMap_lookup_length (cache : List (String × JavascriptObject)) (names : List String)
    (hCache : ∀ n ∈ names, (cache.lookup n).isSome = true) :
    (names.filterMap (fun n => cache.lookup n)).length = names.length := by
  have h := congrArg List.length (filterMap_lookup_some cache names hCache)
  simpa using h

theorem classify_opts_names (g : V8Value) (cache : List (String × JavascriptObject))
    (opts : Option V8Value) (hObj : ∀ o, opts = some o → o.IsObject = true)
    (n : String) (rest : List String) :
    classify g cache (opts.toList ++ (n :: rest).map V8Value.string) =
      { boundObjectRequired := ((n :: rest).map V8Value.string).any (needsFetch g)
        notifyIfAlreadyBound := optionFlag opts "NotifyIfAlreadyBound" "notifyIfAlreadyBound"
        ignoreCache := optionFlag opts "IgnoreCache" "ignoreCache"
        cachedObjects := ((n :: rest).map V8Value.string).filterMap (cachedObjectOf g cache)
        objectNamesWithBoundStatus :=
          ((n :: rest).map V8Value.string).filterMap (statusOf g cache)
        objectCount := ((n :: rest).length : Int)
        params := paramsLoop g opts.toList.length ((n :: rest).map V8Value.string) [] } := by
  cases opts with
  | none => simpa [optionFlag] using classify_names g cache n rest
  | some o =>
    have h := classify_options g cache o (hObj o rfl) ((n :: rest).map V8Value.string)
    simpa [optionFlag] using h

theorem paramsLoop_bound (g : V8Value) (names : List String)
    (hScope : ∀ n ∈ names, g.HasValue n = true) (i : Nat) (p : List CefValue) :
    paramsLoop g i (names.map V8Value.string) p = p :=
  paramsLoop_noFetch g _ (needsFetch_bound g names hScope) i p

/-! ## Execute on an all-bound request with an options object -/

/-- With a leading options object that does not set the ignore-cache flag and names that
are all bound already, `Execute` resolves with the already-bound response and then
notifies exactly when the notify flag is set. -/
theorem Execute_allBound
    (h : BindObjectAsyncHandler) (context : CefV8Context) (promiseData : V8Value)
    (frame : CefFrame) (o : V8Value) (names : List String)
    (hEnter : context.Enter = true)
    (hEval : context.EvalPromiseCreator = Except.ok promiseData)
    (hFrame : context.Frame = some frame) (hValid : frame.IsValid = true)
    (hObject : o.IsObject = true)
    (hIgnore : GetV8BoolValue o "IgnoreCache" "ignoreCache" = false)
    (hNames : names ≠ [])
    (hScope : ∀ n ∈ names, context.Global.HasValue n = true) :
    (Execute h (some context) (o :: names.map V8Value.string)).effects
        = Effect.Resolve
            (V8Value.object
              [("Success", V8Value.bool false), ("Count", V8Value.int 0),
               ("Message", V8Value.string "Object(s) already bound")]) ::
          (if GetV8BoolValue o "NotifyIfAlreadyBound" "notifyIfAlreadyBound" = true then
            [Effect.SendProcessMessage
              { name := MessageName.kJavascriptObjectsBoundInJavascript,
                argumentList :=
                  [CefValue.list
                    (names.map (fun n =>
                      CefValue.dictionary
                        [("Name", CefValue.string n),
                         ("IsCached", CefValue.bool (h._javascriptObjects.lookup n).isSome),
                         ("AlreadyBound", CefValue.bool true)]))] }]
           else [])
    ∧ (Execute h (some context) (o :: names.map V8Value.string)).handler = h := by
  obtain ⟨n, rest, rfl⟩ := List.exists_cons_of_ne_nil hNames
  have hb := any_needsFetch_bound context.Global (n :: rest) hScope
  have hs := statusOf_names context.Global h._javascriptObjects (n :: rest)
  have hs2 : (n :: rest).map
        (fun m => (m, context.Global.HasValue m, (h._javascriptObjects.lookup m).isSome))
      = (n :: rest).map (fun m => (m, true, (h._javascriptObjects.lookup m).isSome)) :=
    List.map_congr_left (fun m hm => by rw [hScope m hm])
  have hcls := classify_options context.Global h._javascriptObjects o hObject
    ((n :: rest).map V8Value.string)
  rw [hb, hs, hs2, hIgnore] at hcls
  constructor
  · simp only [Execute, hEnter, hEval, hFrame, validFrame, hValid, hcls]
    cases hN : GetV8BoolValue o "NotifyIfAlreadyBound" "notifyIfAlreadyBound" <;>
      simp [alreadyBoundResponse, V8Value.SetValue, NotifyObjectBound_eq]
  · simp only [Execute, hEnter, hEval, hFrame, validFrame, hValid, hcls]
    simp

/-! ## Claims C1 to C10 -/

/-- Claim C1. For a non-empty list of string names passed without an options object,
none of them present in the global scope and none held in the object cache, with a valid
frame: `Execute` appends exactly one pending callback to the registry, and its only effect
is one request-objects message whose slot 0 is the identifier returned by the registry and
whose slot 1 is the list of all the names in their original order (so there is no merge,
no settlement of the promise and no bound-notification in this call). -/
theorem C1_unknown_names_send_one_request
    (h : BindObjectAsyncHandler) (context : CefV8Context) (promiseData : V8Value)
    (frame : CefFrame) (names : List String)
    (hEnter : context.Enter = true)
    (hEval : context.EvalPromiseCreator = Except.ok promiseData)
    (hFrame : context.Frame = some frame) (hValid : frame.IsValid = true)
    (hNames : names ≠ [])
    (hScope : ∀ n ∈ names, context.Global.HasValue n = false)
    (hCache : ∀ n ∈ names, h._javascriptObjects.lookup n = none) :
    (Execute h (some context) (names.map V8Value.string)).handler._callbackRegistry.methodCallbacks
        = h._callbackRegistry.methodCallbacks ++
            [((h._callbackRegistry.SaveMethodCallback
                { resolve := promiseData.GetValue "res", reject := promiseData.GetValue "rej" }).1,
              { resolve := promiseData.GetValue "res", reject := promiseData.GetValue "rej" })]
    ∧ (Execute h (some context) (names.map V8Value.string)).effects
        = [Effect.SendProcessMessage
            { name := MessageName.kJavascriptRootObjectRequest,
              argumentList :=
                [CefValue.int64 (h._callbackRegistry.SaveMethodCallback
                    { resolve := promiseData.GetValue "res",
                      reject := promiseData.GetValue "rej" }).1,
                 CefValue.list (names.map CefValue.string)] }] := by
  obtain ⟨n, rest, rfl⟩ := List.exists_cons_of_ne_nil hNames
  have hp := paramsLoop_dense context.Global (n :: rest) hScope 0 [] rfl
  have hb := any_needsFetch_absent context.Global (n :: rest) hScope
  have hc := cachedObjectOf_absent context.Global h._javascriptObjects (n :: rest) hScope
  rw [filterMap_lookup_none _ _ hCache] at hc
  have hcls := classify_names context.Global h._javascriptObjects n rest
  rw [hp, hb, hc] at hcls
  simp only [Execute, hEnter, hEval, hFrame, validFrame, hValid, hcls]
  have hne : ¬ ((0 : Int) = (rest.length : Int) + 1) := by omega
  simp [RegisterBoundObjectRegistry.SaveMethodCallback, requestMessage, CefListValue.SetList,
    CefListValue.SetInt64, CefListValue.Set, hne]

/-- Witness for C1: the request `("foo", "bar")` with an empty scope and an empty cache
registers one callback and sends one request carrying identifier 1 and the two names. -/
theorem C1_unknown_names_witness :
    (Execute (exampleHandler []) (some (exampleContext []))
        [V8Value.string "foo", V8Value.string "bar"]).handler._callbackRegistry.methodCallbacks
      = [(1, { resolve := V8Value.object [("kind", V8Value.string "resolve")],
               reject := V8Value.object [("kind", V8Value.string "reject")] })]
    ∧ (Execute (exampleHandler []) (some (exampleContext []))
        [V8Value.string "foo", V8Value.string "bar"]).effects
      = [Effect.SendProcessMessage
          { name := MessageName.kJavascriptRootObjectRequest,
            argumentList :=
              [CefValue.int64 1, CefValue.list [CefValue.string "foo", CefValue.string "bar"]] }] :=
  C1_unknown_names_send_one_request (exampleHandler []) (exampleContext []) examplePromiseData
    exampleFrame ["foo", "bar"] rfl rfl rfl rfl (by simp) (by decide) (by decide)

/-- Claim C2. For at least one string name, optionally preceded by an options object that
does not set the ignore-cache flag, every name absent from the global scope and held in the
object cache, with a valid frame and a browser wrapper: the effects of `Execute` are, in
this order, the merge of exactly the cached objects of the requested names into the root
scope of the frame, the resolution of the promise with Count equal to the number of
requested names, Success true and Message OK, and one bound-notification; the callback
registry is left unchanged and no request-objects message is sent. -/
theorem C2_cached_names_served_from_cache
    (h : BindObjectAsyncHandler) (context : CefV8Context) (promiseData : V8Value)
    (frame : CefFrame) (browserWrapper : CefBrowserWrapper)
    (opts : Option V8Value) (names : List String)
    (hEnter : context.Enter = true)
    (hEval : context.EvalPromiseCreator = Except.ok promiseData)
    (hFrame : context.Frame = some frame) (hValid : frame.IsValid = true)
    (hWrapper : h._browserWrapper = some browserWrapper)
    (hOpts : ∀ o, opts = some o →
      o.IsObject = true ∧ GetV8BoolValue o "IgnoreCache" "ignoreCache" = false)
    (hNames : names ≠ [])
    (hScope : ∀ n ∈ names, context.Global.HasValue n = false)
    (hCache : ∀ n ∈ names, (h._javascriptObjects.lookup n).isSome = true) :
    (names.filterMap (fun n => h._javascriptObjects.lookup n)).map some
        = names.map (fun n => h._javascriptObjects.lookup n)
    ∧ (Execute h (some context) (opts.toList ++ names.map V8Value.string)).effects
        = [Effect.Bind frame.Identifier (names.filterMap (fun n => h._javascriptObjects.lookup n)),
           Effect.Success
             (V8Value.object
               [("Count", V8Value.int (names.length : Int)), ("Success", V8Value.bool true),
                ("Message", V8Value.string "OK")]),
           Effect.SendProcessMessage
             { name := MessageName.kJavascriptObjectsBoundInJavascript,
               argumentList :=
                 [CefValue.list
                   (names.map (fun n =>
                     CefValue.dictionary
                       [("Name", CefValue.string n), ("IsCached", CefValue.bool true),
                        ("AlreadyBound", CefValue.bool false)]))] }]
    ∧ (Execute h (some context) (opts.toList ++ names.map V8Value.string)).handler._callbackRegistry
        = h._callbackRegistry := by
  obtain ⟨n, rest, rfl⟩ := List.exists_cons_of_ne_nil hNames
  have hb := any_needsFetch_absent context.Global (n :: rest) hScope
  have hc := cachedObjectOf_absent context.Global h._javascriptObjects (n :: rest) hScope
  have hs := statusOf_names context.Global h._javascriptObjects (n :: rest)
  have hs2 : (n :: rest).map
        (fun m => (m, context.Global.HasValue m, (h._javascriptObjects.lookup m).isSome))
      = (n :: rest).map (fun m => (m, false, true)) :=
    List.map_congr_left (fun m hm => by rw [hScope m hm, hCache m hm])
  have hlen := filterMap_lookup_length h._javascriptObjects (n :: rest) hCache
  have hcls := classify_opts_names context.Global h._javascriptObjects opts
    (fun o ho => (hOpts o ho).1) n rest
  have hic : optionFlag opts "IgnoreCache" "ignoreCache" = false := by
    cases opts with
    | none => rfl
    | some o => exact (hOpts o rfl).2
  rw [hb, hc, hs, hs2, hic] at hcls
  refine ⟨filterMap_lookup_some _ _ hCache, ?_, ?_⟩
  · simp only [Execute, hEnter, hEval, hFrame, validFrame, hValid, hcls, hWrapper, hlen]
    simp [NotifyObjectBound_eq, cachedResponse, V8Value.SetValue, hlen]
  · simp only [Execute, hEnter, hEval, hFrame, validFrame, hValid, hcls, hWrapper, hlen]
    simp

/-- Witness for C2: the request `("foo", "bar")` with both names cached and an empty scope
merges the two cached objects, resolves with Count 2 and sends one bound-notification. -/
theorem C2_cached_names_witness :
    (Execute (exampleHandler ["foo", "bar"]) (some (exampleContext []))
        [V8Value.string "foo", V8Value.string "bar"]).effects
      = [Effect.Bind 7 [{ Id := 1, Name := "foo" }, { Id := 1, Name := "bar" }],
         Effect.Success
           (V8Value.object
             [("Count", V8Value.int 2), ("Success", V8Value.bool true),
              ("Message", V8Value.string "OK")]),
         Effect.SendProcessMessage
           { name := MessageName.kJavascriptObjectsBoundInJavascript,
             argumentList :=
               [CefValue.list
                 [CefValue.dictionary
                    [("Name", CefValue.string "foo"), ("IsCached", CefValue.bool true),
                     ("AlreadyBound", CefValue.bool false)],
                  CefValue.dictionary
                    [("Name", CefValue.string "bar"), ("IsCached", CefValue.bool true),
                     ("AlreadyBound", CefValue.bool false)]]] }] :=
  (C2_cached_names_served_from_cache (exampleHandler ["foo", "bar"]) (exampleContext [])
    examplePromiseData exampleFrame { JavascriptRootObjectWrappers := [] } none ["foo", "bar"]
    rfl rfl rfl rfl rfl (by simp) (by simp) (by decide) (by decide)).2.1

/-- Claim C3. For at least one string name with default options (no options object, or one
whose ignore-cache and notify-if-already-bound flags both read false), every name already
present in the global scope, with a valid frame: the only effect of `Execute` is the
immediate resolution of the promise with Success false, Count 0 and Message
"Object(s) already bound"; no bound-notification and no request-objects message is sent,
nothing is merged and the handler state (registry included) is unchanged. -/
theorem C3_already_bound_resolved_silently
    (h : BindObjectAsyncHandler) (context : CefV8Context) (promiseData : V8Value)
    (frame : CefFrame) (opts : Option V8Value) (names : List String)
    (hEnter : context.Enter = true)
    (hEval : context.EvalPromiseCreator = Except.ok promiseData)
    (hFrame : context.Frame = some frame) (hValid : frame.IsValid = true)
    (hOpts : ∀ o, opts = some o →
      o.IsObject = true ∧ GetV8BoolValue o "IgnoreCache" "ignoreCache" = false
        ∧ GetV8BoolValue o "NotifyIfAlreadyBound" "notifyIfAlreadyBound" = false)
    (hNames : names ≠ [])
    (hScope : ∀ n ∈ names, context.Global.HasValue n = true) :
    (Execute h (some context) (opts.toList ++ names.map V8Value.string)).effects
        = [Effect.Resolve
            (V8Value.object
              [("Success", V8Value.bool false), ("Count", V8Value.int 0),
               ("Message", V8Value.string "Object(s) already bound")])]
    ∧ (Execute h (some context) (opts.toList ++ names.map V8Value.string)).handler = h := by
  obtain ⟨n, rest, rfl⟩ := List.exists_cons_of_ne_nil hNames
  have hb := any_needsFetch_bound context.Global (n :: rest) hScope
  have hcls := classify_opts_names context.Global h._javascriptObjects opts
    (fun o ho => (hOpts o ho).1) n rest
  have hic : optionFlag opts "IgnoreCache" "ignoreCache" = false := by
    cases opts with
    | none => rfl
    | some o => exact (hOpts o rfl).2.1
  have hnb : optionFlag opts "NotifyIfAlreadyBound" "notifyIfAlreadyBound" = false := by
    cases opts with
    | none => rfl
    | some o => exact (hOpts o rfl).2.2
  rw [hb, hic, hnb] at hcls
  constructor <;>
    simp only [Execute, hEnter, hEval, hFrame, validFrame, hValid, hcls] <;>
    simp [alreadyBoundResponse, V8Value.SetValue]

/-- Witness for C3: the request `({}, "foo")` with `foo` in scope only resolves the promise
with the already-bound response. -/
theorem C3_already_bound_witness :
    (Execute (exampleHandler ["foo"]) (some (exampleContext ["foo"]))
        [V8Value.object [], V8Value.string "foo"]).effects
      = [Effect.Resolve
          (V8Value.object
            [("Success", V8Value.bool false), ("Count", V8Value.int 0),
             ("Message", V8Value.string "Object(s) already bound")])] :=
  (C3_already_bound_resolved_silently (exampleHandler ["foo"]) (exampleContext ["foo"])
    examplePromiseData exampleFrame (some (V8Value.object [])) ["foo"] rfl rfl rfl rfl
    (by intro o ho; cases ho; decide) (by simp) (by decide)).1

/-- Claim C4. When the first argument is an options object whose notify-if-already-bound
flag reads true and whose ignore-cache flag reads false, followed by at least one string
name, every name already present in the global scope, with a valid frame: `Execute` merges
nothing and sends no request (the handler state is unchanged), resolves with Success false,
Count 0, Message "Object(s) already bound", and then sends exactly one bound-notification
listing every requested name in request order with AlreadyBound true. -/
theorem C4_already_bound_notified
    (h : BindObjectAsyncHandler) (context : CefV8Context) (promiseData : V8Value)
    (frame : CefFrame) (o : V8Value) (names : List String)
    (hEnter : context.Enter = true)
    (hEval : context.EvalPromiseCreator = Except.ok promiseData)
    (hFrame : context.Frame = some frame) (hValid : frame.IsValid = true)
    (hObject : o.IsObject = true)
    (hNotify : GetV8BoolValue o "NotifyIfAlreadyBound" "notifyIfAlreadyBound" = true)
    (hIgnore : GetV8BoolValue o "IgnoreCache" "ignoreCache" = false)
    (hNames : names ≠ [])
    (hScope : ∀ n ∈ names, context.Global.HasValue n = true) :
    (Execute h (some context) (o :: names.map V8Value.string)).effects
        = [Effect.Resolve
            (V8Value.object
              [("Success", V8Value.bool false), ("Count", V8Value.int 0),
               ("Message", V8Value.string "Object(s) already bound")]),
           Effect.SendProcessMessage
             { name := MessageName.kJavascriptObjectsBoundInJavascript,
               argumentList :=
                 [CefValue.list
                   (names.map (fun n =>
                     CefValue.dictionary
                       [("Name", CefValue.string n),
                        ("IsCached", CefValue.bool (h._javascriptObjects.lookup n).isSome),
                        ("AlreadyBound", CefValue.bool true)]))] }]
    ∧ (Execute h (some context) (o :: names.map V8Value.string)).handler = h := by
  have hab := Execute_allBound h context promiseData frame o names hEnter hEval hFrame hValid
    hObject hIgnore hNames hScope
  rw [hNotify] at hab
  simpa using hab

/-- Witness for C4: the request `({notifyIfAlreadyBound: true}, "foo", "bar")` with both
names in scope and only `foo` cached resolves as already bound and notifies both names. -/
theorem C4_already_bound_notified_witness :
    (Execute (exampleHandler ["foo"]) (some (exampleContext ["foo", "bar"]))
        [V8Value.object [("notifyIfAlreadyBound", V8Value.bool true)],
         V8Value.string "foo", V8Value.string "bar"]).effects
      = [Effect.Resolve
          (V8Value.object
            [("Success", V8Value.bool false), ("Count", V8Value.int 0),
             ("Message", V8Value.string "Object(s) already bound")]),
         Effect.SendProcessMessage
           { name := MessageName.kJavascriptObjectsBoundInJavascript,
             argumentList :=
               [CefValue.list
                 [CefValue.dictionary
                    [("Name", CefValue.string "foo"), ("IsCached", CefValue.bool true),
                     ("AlreadyBound", CefValue.bool true)],
                  CefValue.dictionary
                    [("Name", CefValue.string "bar"), ("IsCached", CefValue.bool false),
                     ("AlreadyBound", CefValue.bool true)]]] }] :=
  (C4_already_bound_notified (exampleHandler ["foo"]) (exampleContext ["foo", "bar"])
    examplePromiseData exampleFrame
    (V8Value.object [("notifyIfAlreadyBound", V8Value.bool true)]) ["foo", "bar"]
    rfl rfl rfl rfl rfl (by decide) (by decide) (by simp) (by decide)).1

/-- Claim C5. When the leading options object reads ignore-cache true, with a valid frame,
whatever the remaining arguments, the scope and the cache hold: `Execute` appends exactly
one pending callback to the registry and its only effect is one request-objects message
(identifier in slot 0, the parameter list in slot 1); nothing is merged from the cache, the
promise is not settled and no bound-notification is sent in this call. -/
theorem C5_ignoreCache_forces_request
    (h : BindObjectAsyncHandler) (context : CefV8Context) (promiseData : V8Value)
    (frame : CefFrame) (o : V8Value) (rest : List V8Value)
    (hEnter : context.Enter = true)
    (hEval : context.EvalPromiseCreator = Except.ok promiseData)
    (hFrame : context.Frame = some frame) (hValid : frame.IsValid = true)
    (hObject : o.IsObject = true)
    (hIgnore : GetV8BoolValue o "IgnoreCache" "ignoreCache" = true) :
    (Execute h (some context) (o :: rest)).handler._callbackRegistry.methodCallbacks
        = h._callbackRegistry.methodCallbacks ++
            [((h._callbackRegistry.SaveMethodCallback
                { resolve := promiseData.GetValue "res", reject := promiseData.GetValue "rej" }).1,
              { resolve := promiseData.GetValue "res", reject := promiseData.GetValue "rej" })]
    ∧ (Execute h (some context) (o :: rest)).effects
        = [Effect.SendProcessMessage
            { name := MessageName.kJavascriptRootObjectRequest,
              argumentList :=
                [CefValue.int64 (h._callbackRegistry.SaveMethodCallback
                    { resolve := promiseData.GetValue "res",
                      reject := promiseData.GetValue "rej" }).1,
                 CefValue.list
                   (classify context.Global h._javascriptObjects (o :: rest)).params] }] := by
  have hcls := classify_options context.Global h._javascriptObjects o hObject rest
  have hig : (classify context.Global h._javascriptObjects (o :: rest)).ignoreCache = true := by
    rw [hcls]; exact hIgnore
  constructor <;>
    simp [Execute, hEnter, hEval, hFrame, validFrame, hValid, hig,
      RegisterBoundObjectRegistry.SaveMethodCallback, requestMessage, CefListValue.SetList,
      CefListValue.SetInt64, CefListValue.Set]

/-- Witness for C5: the request `({ignoreCache: true}, "foo")` with `foo` held in the cache
still registers one callback and sends one request, and merges nothing. -/
theorem C5_ignoreCache_witness :
    (Execute (exampleHandler ["foo"]) (some (exampleContext []))
        [V8Value.object [("ignoreCache", V8Value.bool true)],
         V8Value.string "foo"]).handler._callbackRegistry.methodCallbacks
      = [(1, { resolve := V8Value.object [("kind", V8Value.string "resolve")],
               reject := V8Value.object [("kind", V8Value.string "reject")] })]
    ∧ (Execute (exampleHandler ["foo"]) (some (exampleContext []))
        [V8Value.object [("ignoreCache", V8Value.bool true)], V8Value.string "foo"]).effects
      = [Effect.SendProcessMessage
          { name := MessageName.kJavascriptRootObjectRequest,
            argumentList :=
              [CefValue.int64 1, CefValue.list [CefValue.null, CefValue.string "foo"]] }] :=
  C5_ignoreCache_forces_request (exampleHandler ["foo"]) (exampleContext [])
    examplePromiseData exampleFrame (V8Value.object [("ignoreCache", V8Value.bool true)])
    [V8Value.string "foo"] rfl rfl rfl rfl rfl (by decide)

/-- Claim C6 (the code at the failing input). With zero arguments, a valid frame and a
browser wrapper, classification does set `boundObjectRequired` with an empty status list,
but `Execute` then takes the cached branch (0 cached objects equals the requested count 0):
it merges the empty object list, resolves with Success true and Count 0, and sends a
bound-notification with an empty list; no callback is registered and no request-objects
message is sent. -/
theorem C6_zero_arguments_served_from_cache :
    (classify (exampleContext []).Global (exampleHandler [])._javascriptObjects
        []).boundObjectRequired = true
    ∧ (classify (exampleContext []).Global (exampleHandler [])._javascriptObjects
        []).objectNamesWithBoundStatus = []
    ∧ (Execute (exampleHandler []) (some (exampleContext [])) []).effects
        = [Effect.Bind 7 [],
           Effect.Success
             (V8Value.object
               [("Count", V8Value.int 0), ("Success", V8Value.bool true),
                ("Message", V8Value.string "OK")]),
           Effect.SendProcessMessage
             { name := MessageName.kJavascriptObjectsBoundInJavascript,
               argumentList := [CefValue.list []] }]
    ∧ (Execute (exampleHandler []) (some (exampleContext []))
        []).handler._callbackRegistry.methodCallbacks = [] :=
  ⟨rfl, rfl, rfl, rfl⟩

/-- Claim C7 (the code at the failing input). For the request `({IgnoreCache: true}, "foo")`
with `foo` absent from the scope, the request-objects message carries in slot 1 a list of
two entries: a null slot at index 0, the index of the options object, and `foo` at index 1;
it is not the one-entry list of the names absent from the scope. -/
theorem C7_request_list_has_null_slot :
    (Execute (exampleHandler []) (some (exampleContext []))
        [V8Value.object [("IgnoreCache", V8Value.bool true)], V8Value.string "foo"]).effects
      = [Effect.SendProcessMessage
          { name := MessageName.kJavascriptRootObjectRequest,
            argumentList :=
              [CefValue.int64 1, CefValue.list [CefValue.null, CefValue.string "foo"]] }] :=
  rfl

/-- Claim C8. For every status list, `NotifyObjectBound` sends exactly one message, whose
slot 0 is a list with exactly one record per status entry, at consecutive indices and in
the same order; record i carries the name of entry i under Name, its cached flag (third
component) under IsCached and its already-bound flag (second component) under AlreadyBound.
An empty status list gives an empty list. -/
theorem C8_notify_one_record_per_status
    (objectNamesWithBoundStatus : List (String × Bool × Bool)) :
    NotifyObjectBound objectNamesWithBoundStatus =
      [Effect.SendProcessMessage
        { name := MessageName.kJavascriptObjectsBoundInJavascript,
          argumentList :=
            [CefValue.list
              (objectNamesWithBoundStatus.map (fun obj =>
                CefValue.dictionary
                  [("Name", CefValue.string obj.1), ("IsCached", CefValue.bool obj.2.2),
                   ("AlreadyBound", CefValue.bool obj.2.1)]))] }] :=
  NotifyObjectBound_eq objectNamesWithBoundStatus

/-- Claim C9, counterexample. With `foo` in the global scope and also held in the object
cache, the request `({notifyIfAlreadyBound: true}, "foo")` sends a bound-notification whose
record has IsCached true, so the effects differ from those the claim states (the same
record with IsCached false). -/
theorem C9_foo_notified_counterexample :
    (exampleContext ["foo"]).Global.HasValue "foo" = true
    ∧ (Execute (exampleHandler ["foo"]) (some (exampleContext ["foo"]))
        [V8Value.object [("notifyIfAlreadyBound", V8Value.bool true)], V8Value.string "foo"]).effects
      = [Effect.Resolve
          (V8Value.object
            [("Success", V8Value.bool false), ("Count", V8Value.int 0),
             ("Message", V8Value.string "Object(s) already bound")]),
         Effect.SendProcessMessage
           { name := MessageName.kJavascriptObjectsBoundInJavascript,
             argumentList :=
               [CefValue.list
                 [CefValue.dictionary
                   [("Name", CefValue.string "foo"), ("IsCached", CefValue.bool true),
                    ("AlreadyBound", CefValue.bool true)]]] }]
    ∧ (Execute (exampleHandler ["foo"]) (some (exampleContext ["foo"]))
        [V8Value.object [("notifyIfAlreadyBound", V8Value.bool true)], V8Value.string "foo"]).effects
      ≠ [Effect.Resolve
          (V8Value.object
            [("Success", V8Value.bool false), ("Count", V8Value.int 0),
             ("Message", V8Value.string "Object(s) already bound")]),
         Effect.SendProcessMessage
           { name := MessageName.kJavascriptObjectsBoundInJavascript,
             argumentList :=
               [CefValue.list
                 [CefValue.dictionary
                   [("Name", CefValue.string "foo"), ("IsCached", CefValue.bool false),
                    ("AlreadyBound", CefValue.bool true)]]] }] := by
  have e : (Execute (exampleHandler ["foo"]) (some (exampleContext ["foo"]))
        [V8Value.object [("notifyIfAlreadyBound", V8Value.bool true)], V8Value.string "foo"]).effects
      = [Effect.Resolve
          (V8Value.object
            [("Success", V8Value.bool false), ("Count", V8Value.int 0),
             ("Message", V8Value.string "Object(s) already bound")]),
         Effect.SendProcessMessage
           { name := MessageName.kJavascriptObjectsBoundInJavascript,
             argumentList :=
               [CefValue.list
                 [CefValue.dictionary
                   [("Name", CefValue.string "foo"), ("IsCached", CefValue.bool true),
                    ("AlreadyBound", CefValue.bool true)]]] }] := rfl
  refine ⟨by decide, e, ?_⟩
  rw [e]
  simp

/-- Claim C9, amended. For the request `({notifyIfAlreadyBound: true}, "foo")` with `foo`
present in the global scope and a valid frame, `Execute` resolves with Success false,
Count 0, Message "Object(s) already bound" and sends one bound-notification whose list is
the single record with Name foo, AlreadyBound true and IsCached equal to whether the object
cache holds an object under foo. -/
theorem C9_foo_notified_amended
    (h : BindObjectAsyncHandler) (context : CefV8Context) (promiseData : V8Value)
    (frame : CefFrame)
    (hEnter : context.Enter = true)
    (hEval : context.EvalPromiseCreator = Except.ok promiseData)
    (hFrame : context.Frame = some frame) (hValid : frame.IsValid = true)
    (hFoo : context.Global.HasValue "foo" = true) :
    (Execute h (some context)
        [V8Value.object [("notifyIfAlreadyBound", V8Value.bool true)], V8Value.string "foo"]).effects
      = [Effect.Resolve
          (V8Value.object
            [("Success", V8Value.bool false), ("Count", V8Value.int 0),
             ("Message", V8Value.string "Object(s) already bound")]),
         Effect.SendProcessMessage
           { name := MessageName.kJavascriptObjectsBoundInJavascript,
             argumentList :=
               [CefValue.list
                 [CefValue.dictionary
                   [("Name", CefValue.string "foo"),
                    ("IsCached", CefValue.bool (h._javascriptObjects.lookup "foo").isSome),
                    ("AlreadyBound", CefValue.bool true)]]] }] := by
  have hab := Execute_allBound h context promiseData frame
    (V8Value.object [("notifyIfAlreadyBound", V8Value.bool true)]) ["foo"]
    hEnter hEval hFrame hValid rfl (by decide) (by simp) (by simpa using hFoo)
  have hN : GetV8BoolValue (V8Value.object [("notifyIfAlreadyBound", V8Value.bool true)])
      "NotifyIfAlreadyBound" "notifyIfAlreadyBound" = true := by decide
  rw [hN] at hab
  simpa using hab.1

/-- Witness for C9 amended: with `foo` in scope and an empty object cache the record of the
notification has IsCached false, as in the example of the specification. -/
theorem C9_foo_notified_witness :
    (Execute (exampleHandler []) (some (exampleContext ["foo"]))
        [V8Value.object [("notifyIfAlreadyBound", V8Value.bool true)], V8Value.string "foo"]).effects
      = [Effect.Resolve
          (V8Value.object
            [("Success", V8Value.bool false), ("Count", V8Value.int 0),
             ("Message", V8Value.string "Object(s) already bound")]),
         Effect.SendProcessMessage
           { name := MessageName.kJavascriptObjectsBoundInJavascript,
             argumentList :=
               [CefValue.list
                 [CefValue.dictionary
                   [("Name", CefValue.string "foo"), ("IsCached", CefValue.bool false),
                    ("AlreadyBound", CefValue.bool true)]]] }] :=
  C9_foo_notified_amended (exampleHandler []) (exampleContext ["foo"]) examplePromiseData
    exampleFrame rfl rfl rfl rfl (by decide)

/-- Claim C10. `GetV8BoolValue` reads a flag with exact-case precedence: it returns the
boolean under the exact-case key when that key is present and holds a boolean, otherwise
the boolean under the camelCase key when that key is present and holds a boolean,
otherwise false (`GetV8BoolValueSpec`); it is a total function, so a missing or
non-boolean value never produces an error. -/
theorem C10_GetV8BoolValue_exact_case_first (val : V8Value) (key camelCaseKey : String) :
    GetV8BoolValue val key camelCaseKey = GetV8BoolValueSpec val key camelCaseKey := by
  unfold GetV8BoolValue GetV8BoolValueSpec flagUnder
  cases h1 : val.HasValue key <;> cases h2 : val.HasValue camelCaseKey <;> simp
  all_goals
    cases h3 : val.GetValue key <;> cases h4 : val.GetValue camelCaseKey <;>
      simp [V8Value.IsBool, V8Value.GetBoolValue]

/-! ## The branches of Execute -/

/-- The argument scan on an arbitrary argument list, field by field. -/
theorem classify_eq (g : V8Value) (cache : List (String × JavascriptObject))
    (args : List V8Value) :
    classify g cache args =
      { boundObjectRequired := args.isEmpty || args.any (needsFetch g)
        notifyIfAlreadyBound :=
          optionFlag (leadingOptions args) "NotifyIfAlreadyBound" "notifyIfAlreadyBound"
        ignoreCache := optionFlag (leadingOptions args) "IgnoreCache" "ignoreCache"
        cachedObjects := args.filterMap (cachedObjectOf g cache)
        objectNamesWithBoundStatus := args.filterMap (statusOf g cache)
        objectCount := (args.length : Int) - ((leadingOptions args).toList.length : Int)
        params := paramsLoop g 0 args [] } := by
  cases args with
  | nil => simp [classify, Classification.initial, leadingOptions, optionFlag, paramsLoop]
  | cons a rest =>
    cases ha : a.IsObject
    · simp [classify, classifyLoop_eq, Classification.initial, leadingOptions, optionFlag, ha]
    · simp [classify, classifyLoop_eq, Classification.initial, leadingOptions, optionFlag, ha]

/-- With a null or invalid frame an entered call has no effect. -/
theorem Execute_invalid_frame
    (h : BindObjectAsyncHandler) (context : CefV8Context) (promiseData : V8Value)
    (args : List V8Value)
    (hEnter : context.Enter = true)
    (hEval : context.EvalPromiseCreator = Except.ok promiseData)
    (hFrame : validFrame context.Frame = none) :
    Execute h (some context) args =
      { returned := true, retval := some (promiseData.GetValue "p"), exception := none,
        handler := h, effects := [] } := by
  simp [Execute, hEnter, hEval, hFrame]

/-- The cached branch with a null browser wrapper. -/
theorem Execute_fail
    (h : BindObjectAsyncHandler) (context : CefV8Context) (promiseData : V8Value)
    (frame : CefFrame) (args : List V8Value)
    (hEnter : context.Enter = true)
    (hEval : context.EvalPromiseCreator = Except.ok promiseData)
    (hFrame : validFrame context.Frame = some frame)
    (hFetch : ((classify context.Global h._javascriptObjects args).boundObjectRequired
      || (classify context.Global h._javascriptObjects args).ignoreCache) = true)
    (hAll : ((((classify context.Global h._javascriptObjects args).cachedObjects.length : Int)
        == (classify context.Global h._javascriptObjects args).objectCount)
      && ((classify context.Global h._javascriptObjects args).ignoreCache == false)) = true)
    (hWrapper : h._browserWrapper = none) :
    Execute h (some context) args =
      { returned := true, retval := some (promiseData.GetValue "p"), exception := none,
        handler := h,
        effects := [Effect.Fail "Browser wrapper is null and unable to bind objects"] } := by
  simp only [Execute, hEnter, hEval, hFrame, hFetch, hAll, hWrapper, if_true]

/-- The cached branch with a browser wrapper. -/
theorem Execute_cached
    (h : BindObjectAsyncHandler) (context : CefV8Context) (promiseData : V8Value)
    (frame : CefFrame) (browserWrapper : CefBrowserWrapper) (args : List V8Value)
    (hEnter : context.Enter = true)
    (hEval : context.EvalPromiseCreator = Except.ok promiseData)
    (hFrame : validFrame context.Frame = some frame)
    (hFetch : ((classify context.Global h._javascriptObjects args).boundObjectRequired
      || (classify context.Global h._javascriptObjects args).ignoreCache) = true)
    (hAll : ((((classify context.Global h._javascriptObjects args).cachedObjects.length : Int)
        == (classify context.Global h._javascriptObjects args).objectCount)
      && ((classify context.Global h._javascriptObjects args).ignoreCache == false)) = true)
    (hWrapper : h._browserWrapper = some browserWrapper) :
    Execute h (some context) args =
      { returned := true, retval := some (promiseData.GetValue "p"), exception := none,
        handler :=
          { h with
            _browserWrapper :=
              some (getOrAddRootObject browserWrapper frame.Identifier
                context.BrowserIdentifier) },
        effects :=
          [Effect.Bind frame.Identifier
              (classify context.Global h._javascriptObjects args).cachedObjects,
           Effect.Success
             (cachedResponse
               ((classify context.Global h._javascriptObjects args).cachedObjects.length : Int)),
           Effect.SendProcessMessage
             (NotifyObjectBoundMessage
               (classify context.Global h._javascriptObjects args).objectNamesWithBoundStatus)] } := by
  simp only [Execute, hEnter, hEval, hFrame, hFetch, hAll, hWrapper, if_true, NotifyObjectBound]
  rfl

/-- The request branch. -/
theorem Execute_request
    (h : BindObjectAsyncHandler) (context : CefV8Context) (promiseData : V8Value)
    (frame : CefFrame) (args : List V8Value)
    (hEnter : context.Enter = true)
    (hEval : context.EvalPromiseCreator = Except.ok promiseData)
    (hFrame : validFrame context.Frame = some frame)
    (hFetch : ((classify context.Global h._javascriptObjects args).boundObjectRequired
      || (classify context.Global h._javascriptObjects args).ignoreCache) = true)
    (hAll : ((((classify context.Global h._javascriptObjects args).cachedObjects.length : Int)
        == (classify context.Global h._javascriptObjects args).objectCount)
      && ((classify context.Global h._javascriptObjects args).ignoreCache == false)) = false) :
    Execute h (some context) args =
      { returned := true, retval := some (promiseData.GetValue "p"), exception := none,
        handler :=
          { h with
            _callbackRegistry :=
              (h._callbackRegistry.SaveMethodCallback
                { resolve := promiseData.GetValue "res",
                  reject := promiseData.GetValue "rej" }).2 },
        effects :=
          [Effect.SendProcessMessage
            (requestMessage
              (h._callbackRegistry.SaveMethodCallback
                { resolve := promiseData.GetValue "res",
                  reject := promiseData.GetValue "rej" }).1
              (classify context.Global h._javascriptObjects args).params)] } := by
  simp only [Execute, hEnter, hEval, hFrame, hFetch, hAll, if_true]
  rfl

/-- The already-bound branch. -/
theorem Execute_bound
    (h : BindObjectAsyncHandler) (context : CefV8Context) (promiseData : V8Value)
    (frame : CefFrame) (args : List V8Value)
    (hEnter : context.Enter = true)
    (hEval : context.EvalPromiseCreator = Except.ok promiseData)
    (hFrame : validFrame context.Frame = some frame)
    (hFetch : ((classify context.Global h._javascriptObjects args).boundObjectRequired
      || (classify context.Global h._javascriptObjects args).ignoreCache) = false) :
    Execute h (some context) args =
      { returned := true, retval := some (promiseData.GetValue "p"), exception := none,
        handler := h,
        effects :=
          Effect.Resolve alreadyBoundResponse ::
            (if (classify context.Global h._javascriptObjects args).notifyIfAlreadyBound = true
             then
              [Effect.SendProcessMessage
                (NotifyObjectBoundMessage
                  (classify context.Global
                    h._javascriptObjects args).objectNamesWithBoundStatus)]
             else []) } := by
  simp only [Execute, hEnter, hEval, hFrame, hFetch, NotifyObjectBound]
  rfl

/-- Every entered call with a created promise takes exactly one of the five branches. -/
theorem Execute_entered_cases
    (h : BindObjectAsyncHandler) (context : CefV8Context) (promiseData : V8Value)
    (args : List V8Value)
    (hEnter : context.Enter = true)
    (hEval : context.EvalPromiseCreator = Except.ok promiseData) :
    (validFrame context.Frame = none
      ∧ Execute h (some context) args =
        { returned := true, retval := some (promiseData.GetValue "p"), exception := none,
          handler := h, effects := [] })
    ∨ (∃ frame, validFrame context.Frame = some frame
      ∧ h._browserWrapper = none
      ∧ ((classify context.Global h._javascriptObjects args).boundObjectRequired
          || (classify context.Global h._javascriptObjects args).ignoreCache) = true
      ∧ ((((classify context.Global h._javascriptObjects args).cachedObjects.length : Int)
            == (classify context.Global h._javascriptObjects args).objectCount)
          && ((classify context.Global h._javascriptObjects args).ignoreCache == false)) = true
      ∧ Execute h (some context) args =
        { returned := true, retval := some (promiseData.GetValue "p"), exception := none,
          handler := h,
          effects := [Effect.Fail "Browser wrapper is null and unable to bind objects"] })
    ∨ (∃ frame browserWrapper, validFrame context.Frame = some frame
      ∧ h._browserWrapper = some browserWrapper
      ∧ ((classify context.Global h._javascriptObjects args).boundObjectRequired
          || (classify context.Global h._javascriptObjects args).ignoreCache) = true
      ∧ ((((classify context.Global h._javascriptObjects args).cachedObjects.length : Int)
            == (classify context.Global h._javascriptObjects args).objectCount)
          && ((classify context.Global h._javascriptObjects args).ignoreCache == false)) = true
      ∧ Execute h (some context) args =
        { returned := true, retval := some (promiseData.GetValue "p"), exception := none,
          handler :=
            { h with
              _browserWrapper :=
                some (getOrAddRootObject browserWrapper frame.Identifier
                  context.BrowserIdentifier) },
          effects :=
            [Effect.Bind frame.Identifier
                (classify context.Global h._javascriptObjects args).cachedObjects,
             Effect.Success
               (cachedResponse
                 ((classify context.Global h._javascriptObjects args).cachedObjects.length : Int)),
             Effect.SendProcessMessage
               (NotifyObjectBoundMessage
                 (classify context.Global
                   h._javascriptObjects args).objectNamesWithBoundStatus)] })
    ∨ (∃ frame, validFrame context.Frame = some frame
      ∧ ((classify context.Global h._javascriptObjects args).boundObjectRequired
          || (classify context.Global h._javascriptObjects args).ignoreCache) = true
      ∧ ((((classify context.Global h._javascriptObjects args).cachedObjects.length : Int)
            == (classify context.Global h._javascriptObjects args).objectCount)
          && ((classify context.Global h._javascriptObjects args).ignoreCache == false)) = false
      ∧ Execute h (some context) args =
        { returned := true, retval := some (promiseData.GetValue "p"), exception := none,
          handler :=
            { h with
              _callbackRegistry :=
                (h._callbackRegistry.SaveMethodCallback
                  { resolve := promiseData.GetValue "res",
                    reject := promiseData.GetValue "rej" }).2 },
          effects :=
            [Effect.SendProcessMessage
              (requestMessage
                (h._callbackRegistry.SaveMethodCallback
                  { resolve := promiseData.GetValue "res",
                    reject := promiseData.GetValue "rej" }).1
                (classify context.Global h._javascriptObjects args).params)] })
    ∨ (∃ frame, validFrame context.Frame = some frame
      ∧ ((classify context.Global h._javascriptObjects args).boundObjectRequired
          || (classify context.Global h._javascriptObjects args).ignoreCache) = false
      ∧ Execute h (some context) args =
        { returned := true, retval := some (promiseData.GetValue "p"), exception := none,
          handler := h,
          effects :=
            Effect.Resolve alreadyBoundResponse ::
              (if (classify context.Global h._javascriptObjects args).notifyIfAlreadyBound = true
               then
                [Effect.SendProcessMessage
                  (NotifyObjectBoundMessage
                    (classify context.Global
                      h._javascriptObjects args).objectNamesWithBoundStatus)]
               else []) }) := by
  cases hF : validFrame context.Frame with
  | none => exact Or.inl ⟨rfl, Execute_invalid_frame h context promiseData args hEnter hEval hF⟩
  | some frame =>
    cases hFetch : ((classify context.Global h._javascriptObjects args).boundObjectRequired
        || (classify context.Global h._javascriptObjects args).ignoreCache) with
    | false =>
      exact Or.inr (Or.inr (Or.inr (Or.inr
        ⟨frame, rfl, rfl, Execute_bound h context promiseData frame args hEnter hEval hF hFetch⟩)))
    | true =>
      cases hAll : ((((classify context.Global h._javascriptObjects args).cachedObjects.length
            : Int) == (classify context.Global h._javascriptObjects args).objectCount)
          && ((classify context.Global h._javascriptObjects args).ignoreCache == false)) with
      | false =>
        exact Or.inr (Or.inr (Or.inr (Or.inl
          ⟨frame, rfl, rfl, rfl,
            Execute_request h context promiseData frame args hEnter hEval hF hFetch hAll⟩)))
      | true =>
        cases hW : h._browserWrapper with
        | none =>
          exact Or.inr (Or.inl
            ⟨frame, rfl, rfl, rfl, rfl,
              Execute_fail h context promiseData frame args hEnter hEval hF hFetch hAll hW⟩)
        | some w =>
          exact Or.inr (Or.inr (Or.inl
            ⟨frame, w, rfl, rfl, rfl, rfl,
              Execute_cached h context promiseData frame w args hEnter hEval hF hFetch hAll hW⟩))

/-- The call always returns true. -/
theorem Execute_returned (h : BindObjectAsyncHandler) (currentContext : Option CefV8Context)
    (args : List V8Value) : (Execute h currentContext args).returned = true := by
  cases currentContext with
  | none => rfl
  | some c =>
    cases hE : c.Enter with
    | false => simp [Execute, hE]
    | true =>
      cases hEv : c.EvalPromiseCreator with
      | error m => simp [Execute, hE, hEv]
      | ok pd =>
        rcases Execute_entered_cases h c pd args hE hEv with
          ⟨_, e⟩ | ⟨_, _, _, _, _, e⟩ | ⟨_, _, _, _, _, _, e⟩ | ⟨_, _, _, _, e⟩ | ⟨_, _, _, e⟩ <;>
        rw [e]

/-- An entered call with a created promise leaves the exception output unset. -/
theorem Execute_exception_none (h : BindObjectAsyncHandler) (c : CefV8Context)
    (pd : V8Value) (args : List V8Value) (hE : c.Enter = true)
    (hEv : c.EvalPromiseCreator = Except.ok pd) :
    (Execute h (some c) args).exception = none := by
  rcases Execute_entered_cases h c pd args hE hEv with
    ⟨_, e⟩ | ⟨_, _, _, _, _, e⟩ | ⟨_, _, _, _, _, _, e⟩ | ⟨_, _, _, _, e⟩ | ⟨_, _, _, e⟩ <;>
  rw [e]

theorem stringEntries_append (l₁ l₂ : List CefValue) :
    stringEntries (l₁ ++ l₂) = stringEntries l₁ ++ stringEntries l₂ := by
  simp [stringEntries, List.filterMap_append]

theorem stringEntries_replicate_null (k : Nat) :
    stringEntries (List.replicate k CefValue.null) = [] := by
  induction k with
  | zero => rfl
  | succ k ih => simp [stringEntries, List.replicate_succ, List.filterMap_cons] at ih ⊢

theorem paramsLoop_stringEntries (g : V8Value) (args : List V8Value) (i : Nat)
    (p : List CefValue) (hp : p.length ≤ i) :
    stringEntries (paramsLoop g i args p)
      = stringEntries p ++ (args.filter (needsFetch g)).map V8Value.GetStringValue := by
  induction args generalizing i p with
  | nil => simp [paramsLoop]
  | cons a rest ih =>
    cases ha : needsFetch g a
    · simp only [paramsLoop, ha, Bool.false_eq_true, if_false, List.filter_cons]
      exact ih (i + 1) p (by omega)
    · have hset : CefListValue.SetString p i a.GetStringValue
          = p ++ List.replicate (i - p.length) CefValue.null
              ++ [CefValue.string a.GetStringValue] := by
        simp [CefListValue.SetString, CefListValue.Set, Nat.not_lt.mpr hp]
      simp only [paramsLoop, ha, if_true, List.filter_cons, List.map_cons]
      rw [ih (i + 1) _ (by rw [hset]; simp; omega), hset]
      simp [stringEntries_append, stringEntries_replicate_null, stringEntries]

theorem filterMap_length_lt {α β : Type} (f : α → Option β) (l : List α)
    (hl : ∃ a ∈ l, f a = none) : (l.filterMap f).length < l.length := by
  induction l with
  | nil => obtain ⟨a, ha, _⟩ := hl; cases ha
  | cons b rest ih =>
    have hle : (rest.filterMap f).length ≤ rest.length := List.length_filterMap_le f rest
    cases hb : f b with
    | none => simp [List.filterMap_cons, hb]; omega
    | some v =>
      obtain ⟨a, ha, hfa⟩ := hl
      rcases List.mem_cons.mp ha with rfl | hmem
      · rw [hb] at hfa; cases hfa
      · have := ih ⟨a, hmem, hfa⟩
        simp [List.filterMap_cons, hb]; omega

theorem filter_needsFetch_names (g : V8Value) (names : List String) :
    ((names.map V8Value.string).filter (needsFetch g)).map V8Value.GetStringValue
      = names.filter (fun n => !g.HasValue n) := by
  induction names with
  | nil => rfl
  | cons n rest ih =>
    cases hn : g.HasValue n <;>
      simp [List.filter_cons, needsFetch, V8Value.IsString, V8Value.GetStringValue, hn] <;>
      simpa using ih

/-- Claim C11, counterexample. For the call with a lone options object, a valid frame and a
null browser wrapper, the cached-object count (0) equals the requested count (0) and the
ignore-cache flag is false, yet `Execute` does not fail the completion: no fetch is
required, so it resolves with the already-bound response. -/
theorem C11_null_wrapper_counterexample :
    ((classify (exampleContext []).Global (exampleHandlerNoWrapper [])._javascriptObjects
        [V8Value.object []]).cachedObjects.length : Int)
      = (classify (exampleContext []).Global (exampleHandlerNoWrapper [])._javascriptObjects
        [V8Value.object []]).objectCount
    ∧ (classify (exampleContext []).Global (exampleHandlerNoWrapper [])._javascriptObjects
        [V8Value.object []]).ignoreCache = false
    ∧ (exampleHandlerNoWrapper [])._browserWrapper = none
    ∧ (Execute (exampleHandlerNoWrapper []) (some (exampleContext []))
        [V8Value.object []]).effects
      = [Effect.Resolve
          (V8Value.object
            [("Success", V8Value.bool false), ("Count", V8Value.int 0),
             ("Message", V8Value.string "Object(s) already bound")])]
    ∧ (Execute (exampleHandlerNoWrapper []) (some (exampleContext []))
        [V8Value.object []]).effects
      ≠ [Effect.Fail "Browser wrapper is null and unable to bind objects"] := by
  refine ⟨rfl, rfl, rfl, rfl, ?_⟩
  have e : (Execute (exampleHandlerNoWrapper []) (some (exampleContext []))
        [V8Value.object []]).effects = [Effect.Resolve alreadyBoundResponse] := rfl
  rw [e]
  simp

/-- Claim C11, amended. When at least one string argument names an object absent from the
global scope, the cached-object count equals the requested count, the ignore-cache flag is
false, the frame is valid and the browser wrapper is null, the only effect of `Execute` is
`Fail` with the message "Browser wrapper is null and unable to bind objects"; nothing is
merged, no message of either kind is sent, and the handler state (registry included) is
unchanged. -/
theorem C11_null_wrapper_fails_amended
    (h : BindObjectAsyncHandler) (context : CefV8Context) (promiseData : V8Value)
    (frame : CefFrame) (arguments : List V8Value)
    (hEnter : context.Enter = true)
    (hEval : context.EvalPromiseCreator = Except.ok promiseData)
    (hFrame : context.Frame = some frame) (hValid : frame.IsValid = true)
    (hWrapper : h._browserWrapper = none)
    (hAbsent : ∃ s, V8Value.string s ∈ arguments ∧ context.Global.HasValue s = false)
    (hCount :
      ((classify context.Global h._javascriptObjects arguments).cachedObjects.length : Int)
        = (classify context.Global h._javascriptObjects arguments).objectCount)
    (hIgnore : (classify context.Global h._javascriptObjects arguments).ignoreCache = false) :
    (Execute h (some context) arguments).effects
        = [Effect.Fail "Browser wrapper is null and unable to bind objects"]
    ∧ (Execute h (some context) arguments).handler = h := by
  have hF : validFrame context.Frame = some frame := by simp [validFrame, hFrame, hValid]
  have hRequired :
      (classify context.Global h._javascriptObjects arguments).boundObjectRequired = true := by
    obtain ⟨s, hs, hsAbs⟩ := hAbsent
    have hany : arguments.any (needsFetch context.Global) = true := by
      rw [List.any_eq_true]
      exact ⟨V8Value.string s, hs,
        by simp [needsFetch, V8Value.IsString, V8Value.GetStringValue, hsAbs]⟩
    rw [classify_eq]
    simp only [hany, Bool.or_true]
  have e := Execute_fail h context promiseData frame arguments hEnter hEval hF
    (by simp [hRequired]) (by simp [hCount, hIgnore]) hWrapper
  rw [e]
  exact ⟨rfl, rfl⟩

/-- Witness for C11 amended: the request `("foo")` with `foo` cached, absent from the scope
and a null browser wrapper fails the completion. -/
theorem C11_null_wrapper_witness :
    (Execute (exampleHandlerNoWrapper ["foo"]) (some (exampleContext []))
        [V8Value.string "foo"]).effects
      = [Effect.Fail "Browser wrapper is null and unable to bind objects"] :=
  (C11_null_wrapper_fails_amended (exampleHandlerNoWrapper ["foo"]) (exampleContext [])
    examplePromiseData exampleFrame [V8Value.string "foo"] rfl rfl rfl rfl rfl
    ⟨"foo", List.Mem.head _, rfl⟩ rfl rfl).1

/-- Claim C12, counterexample. When the evaluation that creates the promise fails with an
exception whose message is empty, the exception output is set to that empty text, so it is
not a non-empty text. -/
theorem C12_empty_message_counterexample :
    exampleContextEvalFailsEmptyMessage.Enter = true
    ∧ exampleContextEvalFailsEmptyMessage.EvalPromiseCreator = Except.error ""
    ∧ (Execute (exampleHandler ["foo"]) (some exampleContextEvalFailsEmptyMessage)
        [V8Value.string "foo"]).exception = some ""
    ∧ ¬ ∃ text, text ≠ ""
        ∧ (Execute (exampleHandler ["foo"]) (some exampleContextEvalFailsEmptyMessage)
            [V8Value.string "foo"]).exception = some text := by
  refine ⟨rfl, rfl, rfl, ?_⟩
  rintro ⟨text, hne, htext⟩
  have e : (Execute (exampleHandler ["foo"]) (some exampleContextEvalFailsEmptyMessage)
      [V8Value.string "foo"]).exception = some "" := rfl
  rw [e] at htext
  exact hne (Option.some.inj htext).symm

/-- Claim C12, amended. `Execute` always returns true. If the current context is null or
cannot be entered, the exception output is the non-empty text
"BindObjectAsyncHandler::Execute - Unable to Get or Enter Context"; if the evaluation that
creates the promise fails, it is the message of the evaluation exception, whatever that
message is; in both cases there are no effects and the handler state is unchanged. In every
other case the exception output is left unset. -/
theorem C12_context_errors_reported
    (h : BindObjectAsyncHandler) (currentContext : Option CefV8Context)
    (arguments : List V8Value) :
    (Execute h currentContext arguments).returned = true
    ∧ ((currentContext = none ∨ ∃ c, currentContext = some c ∧ c.Enter = false) →
        (Execute h currentContext arguments).exception
            = some "BindObjectAsyncHandler::Execute - Unable to Get or Enter Context"
          ∧ "BindObjectAsyncHandler::Execute - Unable to Get or Enter Context" ≠ ""
          ∧ (Execute h currentContext arguments).effects = []
          ∧ (Execute h currentContext arguments).handler = h)
    ∧ (∀ c m, currentContext = some c → c.Enter = true →
        c.EvalPromiseCreator = Except.error m →
        (Execute h currentContext arguments).exception = some m
          ∧ (Execute h currentContext arguments).effects = []
          ∧ (Execute h currentContext arguments).handler = h)
    ∧ (∀ c promiseData, currentContext = some c → c.Enter = true →
        c.EvalPromiseCreator = Except.ok promiseData →
        (Execute h currentContext arguments).exception = none) := by
  refine ⟨Execute_returned h currentContext arguments, ?_, ?_, ?_⟩
  · rintro (rfl | ⟨c, rfl, hc⟩)
    · exact ⟨by simp [Execute], by decide, by simp [Execute], by simp [Execute]⟩
    · exact ⟨by simp [Execute, hc], by decide, by simp [Execute, hc], by simp [Execute, hc]⟩
  · intro c m hcc hEnter hEval
    subst hcc
    exact ⟨by simp [Execute, hEnter, hEval], by simp [Execute, hEnter, hEval],
      by simp [Execute, hEnter, hEval]⟩
  · intro c promiseData hcc hEnter hEval
    subst hcc
    exact Execute_exception_none h c promiseData arguments hEnter hEval

/-- Witness for C12 amended: when the promise creator fails with a range error, the
exception output is that message and the call has no effects. -/
theorem C12_context_errors_witness :
    (Execute (exampleHandler ["foo"]) (some exampleContextEvalFails)
        [V8Value.string "foo"]).exception
      = some "Uncaught RangeError: Maximum call stack size exceeded"
    ∧ (Execute (exampleHandler ["foo"]) (some exampleContextEvalFails)
        [V8Value.string "foo"]).effects = [] :=
  have hx := (C12_context_errors_reported (exampleHandler ["foo"]) (some exampleContextEvalFails)
    [V8Value.string "foo"]).2.2.1 exampleContextEvalFails _ rfl rfl rfl
  ⟨hx.1, hx.2.1⟩

/-- Claim C13. In every call whose effects contain a merge into the frame scope, the effects
are exactly three: the merge first, the resolution of the promise second and the
bound-notification last. So no bound-notification precedes the merge and no call that
merges omits the notification. -/
theorem C13_merge_resolve_notify_order
    (h : BindObjectAsyncHandler) (currentContext : Option CefV8Context)
    (arguments : List V8Value) (frameIdentifier : Int) (objects : List JavascriptObject)
    (hMerge : Effect.Bind frameIdentifier objects ∈ (Execute h currentContext arguments).effects) :
    ∃ response message,
      message.name = MessageName.kJavascriptObjectsBoundInJavascript
      ∧ (Execute h currentContext arguments).effects
        = [Effect.Bind frameIdentifier objects, Effect.Success response,
           Effect.SendProcessMessage message] := by
  cases currentContext with
  | none => simp [Execute] at hMerge
  | some c =>
    cases hE : c.Enter with
    | false => simp [Execute, hE] at hMerge
    | true =>
      cases hEv : c.EvalPromiseCreator with
      | error m => simp [Execute, hE, hEv] at hMerge
      | ok pd =>
        rcases Execute_entered_cases h c pd arguments hE hEv with
          ⟨_, e⟩ | ⟨_, _, _, _, _, e⟩ | ⟨_, _, _, _, _, _, e⟩ | ⟨_, _, _, _, e⟩ | ⟨_, _, _, e⟩
        · rw [e] at hMerge; simp at hMerge
        · rw [e] at hMerge; simp at hMerge
        · rw [e] at hMerge ⊢
          simp at hMerge
          obtain ⟨rfl, rfl⟩ := hMerge
          exact ⟨_, _, rfl, rfl⟩
        · rw [e] at hMerge; simp at hMerge
        · rw [e] at hMerge
          split at hMerge <;> simp at hMerge

/-- Witness for C13: the request `("foo")` served from the cache merges, then resolves,
then notifies. -/
theorem C13_merge_order_witness :
    ∃ response message,
      message.name = MessageName.kJavascriptObjectsBoundInJavascript
      ∧ (Execute (exampleHandler ["foo"]) (some (exampleContext []))
          [V8Value.string "foo"]).effects
        = [Effect.Bind 7 [{ Id := 1, Name := "foo" }], Effect.Success response,
           Effect.SendProcessMessage message] :=
  C13_merge_resolve_notify_order (exampleHandler ["foo"]) (some (exampleContext []))
    [V8Value.string "foo"] 7 [{ Id := 1, Name := "foo" }] (List.Mem.head _)

/-- Claim C15, counterexample. For a lone options object, and for an argument list of only
non-string values, there is no string argument and yet `boundObjectRequired` is false after
classification. -/
theorem C15_no_string_arguments_counterexample :
    [V8Value.object []].any V8Value.IsString = false
    ∧ (classify (exampleContext []).Global (exampleHandler [])._javascriptObjects
        [V8Value.object []]).boundObjectRequired = false
    ∧ [V8Value.int 42, V8Value.null].any V8Value.IsString = false
    ∧ (classify (exampleContext []).Global (exampleHandler [])._javascriptObjects
        [V8Value.int 42, V8Value.null]).boundObjectRequired = false :=
  ⟨rfl, rfl, rfl, rfl⟩

/-- Claim C15, amended. After classification `boundObjectRequired` is true exactly when the
argument list is empty or some string argument is absent from the global scope. -/
theorem C15_boundObjectRequired_amended (g : V8Value) (cache : List (String × JavascriptObject))
    (arguments : List V8Value) :
    (classify g cache arguments).boundObjectRequired
      = (arguments.isEmpty
          || arguments.any (fun a => a.IsString && !g.HasValue a.GetStringValue)) := by
  rw [classify_eq]
  rfl

/-- Claim C16. For every argument list the status list has exactly one entry per string
argument, in argument order with duplicates kept; in each entry the already-bound flag is
whether the global scope holds a value under the name at the time of the call and the
cached flag is whether the object cache holds an object under the name, whatever the
already-bound flag. -/
theorem C16_status_list_per_string_argument (g : V8Value) (cache : List (String × JavascriptObject))
    (arguments : List V8Value) :
    (classify g cache arguments).objectNamesWithBoundStatus
        = arguments.filterMap (statusOf g cache)
    ∧ (classify g cache arguments).objectNamesWithBoundStatus.map (fun e => e.1)
        = (arguments.filter V8Value.IsString).map V8Value.GetStringValue
    ∧ ∀ e ∈ (classify g cache arguments).objectNamesWithBoundStatus,
        e.2.1 = g.HasValue e.1 ∧ e.2.2 = (cache.lookup e.1).isSome := by
  rw [classify_eq]
  refine ⟨rfl, ?_, ?_⟩
  · simp only
    induction arguments with
    | nil => rfl
    | cons a rest ih =>
      cases a <;> simp [statusOf, V8Value.IsString, V8Value.GetStringValue, List.filterMap_cons,
        List.filter_cons] <;> simpa using ih
  · intro e he
    simp only [List.mem_filterMap] at he
    obtain ⟨a, _, ha⟩ := he
    cases a <;> simp [statusOf] at ha
    subst ha
    simp

/-- Claim C17. For string names, optionally after an options object that does not set the
ignore-cache flag, with a valid frame: if at least one name is absent from the global scope
and the number of cached objects collected differs from the number of names (in particular
if some name is already bound, or some absent name is not cached), the only effect of
`Execute` is one request-objects message (nothing is merged), one callback is registered,
and the string entries of the request list are exactly the names absent from the scope, in
order, those held in the cache included. -/
theorem C17_count_mismatch_requests_all_absent
    (h : BindObjectAsyncHandler) (context : CefV8Context) (promiseData : V8Value)
    (frame : CefFrame) (opts : Option V8Value) (names : List String)
    (hEnter : context.Enter = true)
    (hEval : context.EvalPromiseCreator = Except.ok promiseData)
    (hFrame : context.Frame = some frame) (hValid : frame.IsValid = true)
    (hOpts : ∀ o, opts = some o →
      o.IsObject = true ∧ GetV8BoolValue o "IgnoreCache" "ignoreCache" = false)
    (hAbsent : ∃ n ∈ names, context.Global.HasValue n = false)
    (hDiff :
      (classify context.Global h._javascriptObjects
          (opts.toList ++ names.map V8Value.string)).cachedObjects.length ≠ names.length
      ∨ (∃ n ∈ names, context.Global.HasValue n = true)
      ∨ (∃ n ∈ names, context.Global.HasValue n = false
            ∧ h._javascriptObjects.lookup n = none)) :
    (Execute h (some context) (opts.toList ++ names.map V8Value.string)).effects
        = [Effect.SendProcessMessage
            { name := MessageName.kJavascriptRootObjectRequest,
              argumentList :=
                [CefValue.int64 (h._callbackRegistry.SaveMethodCallback
                    { resolve := promiseData.GetValue "res",
                      reject := promiseData.GetValue "rej" }).1,
                 CefValue.list
                   (classify context.Global h._javascriptObjects
                     (opts.toList ++ names.map V8Value.string)).params] }]
    ∧ stringEntries
        (classify context.Global h._javascriptObjects
          (opts.toList ++ names.map V8Value.string)).params
        = names.filter (fun n => !context.Global.HasValue n)
    ∧ (Execute h (some context)
          (opts.toList ++ names.map V8Value.string)).handler._callbackRegistry.methodCallbacks
        = h._callbackRegistry.methodCallbacks ++
            [((h._callbackRegistry.SaveMethodCallback
                { resolve := promiseData.GetValue "res", reject := promiseData.GetValue "rej" }).1,
              { resolve := promiseData.GetValue "res", reject := promiseData.GetValue "rej" })] := by
  have hF : validFrame context.Frame = some frame := by simp [validFrame, hFrame, hValid]
  obtain ⟨a, haMem, haAbs⟩ := hAbsent
  obtain ⟨n, rest, rfl⟩ := List.exists_cons_of_ne_nil (List.ne_nil_of_mem haMem)
  have hcls := classify_opts_names context.Global h._javascriptObjects opts
    (fun o ho => (hOpts o ho).1) n rest
  have hic : optionFlag opts "IgnoreCache" "ignoreCache" = false := by
    cases opts with
    | none => rfl
    | some o => exact (hOpts o rfl).2
  have hany : ((n :: rest).map V8Value.string).any (needsFetch context.Global) = true := by
    rw [List.any_eq_true]
    exact ⟨V8Value.string a, List.mem_map.mpr ⟨a, haMem, rfl⟩,
      by simp [needsFetch, V8Value.IsString, V8Value.GetStringValue, haAbs]⟩
  have hlen : (((n :: rest).map V8Value.string).filterMap
        (cachedObjectOf context.Global h._javascriptObjects)).length ≠ (n :: rest).length := by
    rcases hDiff with hd | ⟨b, hbMem, hb⟩ | ⟨b, hbMem, hb, hbc⟩
    · rw [hcls] at hd; exact hd
    · have hlt := filterMap_length_lt (cachedObjectOf context.Global h._javascriptObjects)
        ((n :: rest).map V8Value.string)
        ⟨V8Value.string b, List.mem_map.mpr ⟨b, hbMem, rfl⟩, by simp [cachedObjectOf, hb]⟩
      rw [List.length_map] at hlt
      omega
    · have hlt := filterMap_length_lt (cachedObjectOf context.Global h._javascriptObjects)
        ((n :: rest).map V8Value.string)
        ⟨V8Value.string b, List.mem_map.mpr ⟨b, hbMem, rfl⟩, by simp [cachedObjectOf, hb, hbc]⟩
      rw [List.length_map] at hlt
      omega
  have hFetch : ((classify context.Global h._javascriptObjects
        (opts.toList ++ (n :: rest).map V8Value.string)).boundObjectRequired
      || (classify context.Global h._javascriptObjects
        (opts.toList ++ (n :: rest).map V8Value.string)).ignoreCache) = true := by
    rw [hcls]; simp only [hany, Bool.true_or]
  have hAll : ((((classify context.Global h._javascriptObjects
        (opts.toList ++ (n :: rest).map V8Value.string)).cachedObjects.length : Int)
        == (classify context.Global h._javascriptObjects
          (opts.toList ++ (n :: rest).map V8Value.string)).objectCount)
      && ((classify context.Global h._javascriptObjects
        (opts.toList ++ (n :: rest).map V8Value.string)).ignoreCache == false)) = false := by
    rw [hcls]
    have hne : ¬ ((((n :: rest).map V8Value.string).filterMap
        (cachedObjectOf context.Global h._javascriptObjects)).length : Int)
          = ((n :: rest).length : Int) := by
      intro hEq; exact hlen (by exact_mod_cast hEq)
    have hbeq : (((((n :: rest).map V8Value.string).filterMap
        (cachedObjectOf context.Global h._javascriptObjects)).length : Int)
          == ((n :: rest).length : Int)) = false := by
      cases hb : (((((n :: rest).map V8Value.string).filterMap
        (cachedObjectOf context.Global h._javascriptObjects)).length : Int)
          == ((n :: rest).length : Int))
      · rfl
      · exact absurd (eq_of_beq hb) hne
    simp only [hbeq, Bool.false_and]
  have e := Execute_request h context promiseData frame
    (opts.toList ++ (n :: rest).map V8Value.string) hEnter hEval hF hFetch hAll
  refine ⟨?_, ?_, ?_⟩
  · rw [e]
    simp [requestMessage, CefListValue.SetList, CefListValue.SetInt64, CefListValue.Set]
  · rw [hcls]
    simp only
    rw [paramsLoop_stringEntries _ _ _ _ (Nat.zero_le _), filter_needsFetch_names]
    rfl
  · rw [e]
    simp [RegisterBoundObjectRegistry.SaveMethodCallback]

/-- Witness for C17: for `("foo", "bar")` with `foo` cached and `bar` not, both absent from
the scope, the request names both `foo` and `bar`. -/
theorem C17_count_mismatch_witness :
    (Execute (exampleHandler ["foo"]) (some (exampleContext []))
        [V8Value.string "foo", V8Value.string "bar"]).effects
      = [Effect.SendProcessMessage
          { name := MessageName.kJavascriptRootObjectRequest,
            argumentList :=
              [CefValue.int64 1, CefValue.list [CefValue.string "foo", CefValue.string "bar"]] }] :=
  (C17_count_mismatch_requests_all_absent (exampleHandler ["foo"]) (exampleContext [])
    examplePromiseData exampleFrame none ["foo", "bar"] rfl rfl rfl rfl (by simp)
    ⟨"foo", by simp, by decide⟩
    (Or.inr (Or.inr ⟨"bar", by simp, by decide, by decide⟩))).1

/-- Claim C19. For every call that enters the context and creates the promise, with a valid
frame, exactly one of the four effect patterns holds: served from cache, null browser
wrapper, request sent, already bound. Consequently no call both sends a request and settles
the promise, and every call registers at most one pending callback, sends at most one
request and at most one bound-notification, and settles the promise at most once. -/
theorem C19_exactly_one_effect_pattern
    (h : BindObjectAsyncHandler) (context : CefV8Context) (promiseData : V8Value)
    (frame : CefFrame) (arguments : List V8Value)
    (hEnter : context.Enter = true)
    (hEval : context.EvalPromiseCreator = Except.ok promiseData)
    (hFrame : context.Frame = some frame) (hValid : frame.IsValid = true) :
    ((ServedFromCachePattern h (Execute h (some context) arguments)
        ∧ ¬ NullWrapperPattern h (Execute h (some context) arguments)
        ∧ ¬ RequestSentPattern h (Execute h (some context) arguments)
        ∧ ¬ AlreadyBoundPattern h (Execute h (some context) arguments))
      ∨ (¬ ServedFromCachePattern h (Execute h (some context) arguments)
        ∧ NullWrapperPattern h (Execute h (some context) arguments)
        ∧ ¬ RequestSentPattern h (Execute h (some context) arguments)
        ∧ ¬ AlreadyBoundPattern h (Execute h (some context) arguments))
      ∨ (¬ ServedFromCachePattern h (Execute h (some context) arguments)
        ∧ ¬ NullWrapperPattern h (Execute h (some context) arguments)
        ∧ RequestSentPattern h (Execute h (some context) arguments)
        ∧ ¬ AlreadyBoundPattern h (Execute h (some context) arguments))
      ∨ (¬ ServedFromCachePattern h (Execute h (some context) arguments)
        ∧ ¬ NullWrapperPattern h (Execute h (some context) arguments)
        ∧ ¬ RequestSentPattern h (Execute h (some context) arguments)
        ∧ AlreadyBoundPattern h (Execute h (some context) arguments)))
    ∧ ¬ ((Execute h (some context) arguments).effects.any Effect.isRequest = true
        ∧ (Execute h (some context) arguments).effects.any Effect.isSettle = true)
    ∧ (Execute h (some context) arguments).handler._callbackRegistry.methodCallbacks.length
        ≤ h._callbackRegistry.methodCallbacks.length + 1
    ∧ (Execute h (some context) arguments).effects.countP Effect.isRequest ≤ 1
    ∧ (Execute h (some context) arguments).effects.countP Effect.isBoundNotification ≤ 1
    ∧ (Execute h (some context) arguments).effects.countP Effect.isSettle ≤ 1 := by
  have hF : validFrame context.Frame = some frame := by simp [validFrame, hFrame, hValid]
  rcases Execute_entered_cases h context promiseData arguments hEnter hEval with
    ⟨hn, _⟩ | ⟨_, _, _, _, _, e⟩ | ⟨_, _, _, _, _, _, e⟩ | ⟨_, _, _, _, e⟩ | ⟨_, _, _, e⟩
  · rw [hF] at hn; cases hn
  · rw [e]
    refine ⟨Or.inr (Or.inl ?_), ?_⟩
    · simp [ServedFromCachePattern, NullWrapperPattern, RequestSentPattern, AlreadyBoundPattern]
    · simp [Effect.isRequest, Effect.isSettle, Effect.isBoundNotification]
  · rw [e]
    refine ⟨Or.inl ?_, ?_⟩
    · simp [ServedFromCachePattern, NullWrapperPattern, RequestSentPattern, AlreadyBoundPattern,
        cachedResponse, V8Value.SetValue]
    · simp [Effect.isRequest, Effect.isSettle, Effect.isBoundNotification,
        NotifyObjectBoundMessage]
  · rw [e]
    refine ⟨Or.inr (Or.inr (Or.inl ?_)), ?_⟩
    · simp [ServedFromCachePattern, NullWrapperPattern, RequestSentPattern, AlreadyBoundPattern,
        RegisterBoundObjectRegistry.SaveMethodCallback]
    · simp [Effect.isRequest, Effect.isSettle, Effect.isBoundNotification, requestMessage,
        RegisterBoundObjectRegistry.SaveMethodCallback]
  · rw [e]
    refine ⟨Or.inr (Or.inr (Or.inr ?_)), ?_⟩
    · cases hN : (classify context.Global h._javascriptObjects arguments).notifyIfAlreadyBound <;>
        simp [ServedFromCachePattern, NullWrapperPattern, RequestSentPattern,
          AlreadyBoundPattern, alreadyBoundResponse, V8Value.SetValue]
    · cases hN : (classify context.Global h._javascriptObjects arguments).notifyIfAlreadyBound <;>
        simp [Effect.isRequest, Effect.isSettle, Effect.isBoundNotification,
          NotifyObjectBoundMessage]

/-- Witness for C19: the request `("foo")` with an empty cache and an empty scope sends one
request and does not settle the promise. -/
theorem C19_effect_pattern_witness :
    (Execute (exampleHandler []) (some (exampleContext []))
        [V8Value.string "foo"]).effects.countP Effect.isRequest ≤ 1
    ∧ (Execute (exampleHandler []) (some (exampleContext []))
        [V8Value.string "foo"]).effects.countP Effect.isSettle ≤ 1 :=
  have hx := C19_exactly_one_effect_pattern (exampleHandler []) (exampleContext [])
    examplePromiseData exampleFrame [V8Value.string "foo"] rfl rfl rfl rfl
  ⟨hx.2.2.2.1, hx.2.2.2.2.2⟩

/-- Claim C20. If the frame of the context is null or invalid, then for every argument list,
scope and cache, `Execute` returns true with the promise as its return value and no
exception, has no effects (no merge, no message of either kind, no resolution or rejection
of the promise) and leaves the handler state, registry included, unchanged. -/
theorem C20_invalid_frame_no_effects
    (h : BindObjectAsyncHandler) (context : CefV8Context) (promiseData : V8Value)
    (arguments : List V8Value)
    (hEnter : context.Enter = true)
    (hEval : context.EvalPromiseCreator = Except.ok promiseData)
    (hFrame : context.Frame = none ∨ ∃ f, context.Frame = some f ∧ f.IsValid = false) :
    Execute h (some context) arguments =
      { returned := true, retval := some (promiseData.GetValue "p"), exception := none,
        handler := h, effects := [] } := by
  apply Execute_invalid_frame h context promiseData arguments hEnter hEval
  rcases hFrame with hf | ⟨f, hf, hv⟩
  · simp [validFrame, hf]
  · simp [validFrame, hf, hv]

/-- Witness for C20: with an invalid frame the request `("foo")` returns the promise and
does nothing else. -/
theorem C20_invalid_frame_witness :
    Execute (exampleHandler ["foo"])
        (some (exampleContextWithFrame (some { IsValid := false, Identifier := 7 }) []))
        [V8Value.string "foo"]
      = { returned := true,
          retval := some (V8Value.object [("kind", V8Value.string "promise")]),
          exception := none, handler := exampleHandler ["foo"], effects := [] } :=
  C20_invalid_frame_no_effects (exampleHandler ["foo"])
    (exampleContextWithFrame (some { IsValid := false, Identifier := 7 }) [])
    examplePromiseData [V8Value.string "foo"] rfl rfl (Or.inr ⟨_, rfl, rfl⟩)

end CefSharp
